import Mathlib

/-!
# packet-meter Linux daemon: accounting and reporting engine

A shallow embedding of `internal/monitor/traffic.go`, of `sendReport` in
`internal/reporter/reporter.go` and of `validate` in
`internal/config/config.go`, followed by theorems about them.

Conventions of the embedding:

* Go `uint64` values are natural numbers; every arithmetic operation of the
  source on them is written with an explicit `% 2^64`.
* A Go `map[string]*InterfaceUsage` is an association list (`IfaceMap`) read
  with `mapGet` and written with `mapSet`.
* Everything the code obtains from outside (the clock, the statistics files
  under `/sys/class/net`, the outcome of writing the usage file, the HTTP
  server) is passed in explicitly.
* Logging calls have no effect on the state and are left out.
-/

namespace PacketMeter

/-! ## Unsigned 64-bit arithmetic -/

/-- Go `a + b` on `uint64` operands. -/
def add64 (a b : Nat) : Nat := (a + b) % 2 ^ 64

/-- Go `a - b` on `uint64` operands (both below `2^64`): wrapping subtraction. -/
def sub64 (a b : Nat) : Nat := (a + 2 ^ 64 - b) % 2 ^ 64

/-! ## Data model (`traffic.go`, lines 21-32) -/

/-- Go struct `InterfaceUsage`. -/
structure InterfaceUsage where
  Interface : String
  TotalRx : Nat
  TotalTx : Nat
  LastRx : Nat
  LastTx : Nat
deriving DecidableEq, Repr

/-- The four counters of an `InterfaceUsage` fit the `uint64` type. -/
def InterfaceUsage.WF (s : InterfaceUsage) : Prop :=
  s.TotalRx < 2 ^ 64 ∧ s.TotalTx < 2 ^ 64 ∧ s.LastRx < 2 ^ 64 ∧ s.LastTx < 2 ^ 64

instance (s : InterfaceUsage) : Decidable s.WF :=
  inferInstanceAs (Decidable (_ ∧ _ ∧ _ ∧ _))

/-- Go `map[string]*InterfaceUsage`: interface name to usage. A list is a
map that has been made (`[]` is the empty non-nil map) and whose entries are
non-nil pointers; a document that decodes to a nil map or to a nil entry has
its own constructors in `FileContent`. -/
abbrev IfaceMap := List (String × InterfaceUsage)

/-- Go `m[k]` with the `exists` flag. -/
def mapGet : IfaceMap → String → Option InterfaceUsage
  | [], _ => none
  | (k', v) :: rest, k => if k' = k then some v else mapGet rest k

/-- Go `m[k] = v`: overwrite the entry of `k`, or add one. -/
def mapSet : IfaceMap → String → InterfaceUsage → IfaceMap
  | [], k, v => [(k, v)]
  | (k', v') :: rest, k, v =>
    if k' = k then (k, v) :: rest else (k', v') :: mapSet rest k v

/-- The key set of a map. -/
def mapKeys (m : IfaceMap) : List String := m.map Prod.fst

/-- Go struct `DailyUsage`. -/
structure DailyUsage where
  Date : String
  Interfaces : IfaceMap
deriving DecidableEq, Repr

/-! ## The outside world -/

/-- The statistics files `/sys/class/net/<iface>/statistics/{rx,tx}_bytes`:
for each interface the decimal number the file holds, or `none` when the file
cannot be read or does not hold a number. -/
structure CounterSource where
  rx : String → Option Nat
  tx : String → Option Nat

/-- What the loader finds at `tm.usageFile`. -/
inductive FileContent where
  /-- `ioutil.ReadFile` fails. -/
  | absent
  /-- `json.Unmarshal` fails. -/
  | corrupt
  /-- The file decodes to this snapshot: the document has an `interfaces`
  object (possibly empty) and every entry of it is an object. -/
  | snapshot (d : DailyUsage)
  /-- The file decodes to a `DailyUsage` with this date and a nil map: the
  document has no `interfaces` key, or has `null` there. -/
  | snapshotNilMap (date : String)
  /-- The file decodes to a `DailyUsage` with this date and a map in which
  some entry is a nil pointer: the document has `null` for an interface. -/
  | snapshotNullEntry (date : String)
deriving DecidableEq, Repr

/-- The date of the document in the file, when the file decodes. -/
def FileContent.date? : FileContent → Option String
  | .absent => none
  | .corrupt => none
  | .snapshot d => some d.Date
  | .snapshotNilMap date => some date
  | .snapshotNullEntry date => some date

/-- How one call of `saveDailyUsage` fares on the file system. -/
inductive SaveOutcome where
  /-- Both `os.MkdirAll` and `ioutil.WriteFile` succeed. -/
  | ok
  /-- `os.MkdirAll` fails: nothing is written. -/
  | mkdirFailed
  /-- `ioutil.WriteFile` fails and leaves this content behind. -/
  | writeFailed (left : FileContent)
deriving DecidableEq, Repr

/-- The environment of one operation of the monitor. -/
structure Env where
  /-- The value of `time.Now().Format("2006-01-02")`. -/
  today : String
  counters : CounterSource
  fs : SaveOutcome

/-- Go struct `TrafficMonitor`, with the content of the usage file. The map
of a snapshot in memory is non-nil: `initDailyUsage` and
`initInterfaceUsageLocked` make it, and `loadDailyUsage` adopts a nil map
without panicking only for a monitor without interfaces, which
`discoverInterfaces` never produces and for which no entry is ever written. -/
structure TrafficMonitor where
  interfaces : List String
  dailyUsage : Option DailyUsage
  disk : FileContent
deriving DecidableEq, Repr

/-! ## Reading counters (`traffic.go`, lines 310-334) -/

/-- Go `readCounter`: `strconv.ParseUint(value, 10, 64)` rejects a number
that does not fit 64 bits. -/
def readCounter (file : Option Nat) : Option Nat :=
  match file with
  | none => none
  | some v => if v < 2 ^ 64 then some v else none

/-- Go `readInterfaceCounters`: both files must be readable. -/
def readInterfaceCounters (cs : CounterSource) (iface : String) : Option (Nat × Nat) :=
  match readCounter (cs.rx iface) with
  | none => none
  | some rx =>
    match readCounter (cs.tx iface) with
    | none => none
    | some tx => some (rx, tx)

/-! ## Per-tick update (`traffic.go`, lines 265-308) -/

/-- Go `updateInterfaceUsage`. -/
def updateInterfaceUsage (cs : CounterSource) (iface : String)
    (stats : InterfaceUsage) : InterfaceUsage :=
  match readInterfaceCounters cs iface with
  | none => stats
  | some (rx, tx) =>
    let deltaRx := sub64 rx stats.LastRx
    let deltaTx := sub64 tx stats.LastTx
    { stats with
      TotalRx := add64 stats.TotalRx deltaRx
      TotalTx := add64 stats.TotalTx deltaTx
      LastRx := rx
      LastTx := tx }

/-- Go `saveDailyUsage`: the whole snapshot is marshalled and the file
overwritten. A nil `tm.dailyUsage` marshals to `null`, which decodes to the
zero `DailyUsage`: empty date, nil map. -/
def saveDailyUsage (env : Env) (tm : TrafficMonitor) : TrafficMonitor :=
  let data : FileContent :=
    match tm.dailyUsage with
    | some d => .snapshot d
    | none => .snapshotNilMap ""
  match env.fs with
  | .mkdirFailed => tm
  | .writeFailed left => { tm with disk := left }
  | .ok => { tm with disk := data }

/-- Go `updateDailyUsage`. -/
def updateDailyUsage (env : Env) (tm : TrafficMonitor) : TrafficMonitor :=
  match tm.dailyUsage with
  | none => tm
  | some d =>
    let d' : DailyUsage :=
      { d with Interfaces :=
          d.Interfaces.map (fun e => (e.1, updateInterfaceUsage env.counters e.1 e.2)) }
    saveDailyUsage env { tm with dailyUsage := some d' }

/-! ## Initialisation and loading (`traffic.go`, lines 142-249) -/

/-- Go `initInterfaceUsageLocked`. -/
def initInterfaceUsageLocked (env : Env) (tm : TrafficMonitor) (iface : String) :
    TrafficMonitor :=
  let (rx, tx) :=
    match readInterfaceCounters env.counters iface with
    | some r => r
    | none => (0, 0)
  let du : DailyUsage :=
    match tm.dailyUsage with
    | some d => d
    | none => { Date := env.today, Interfaces := [] }
  let entry : InterfaceUsage :=
    { Interface := iface, TotalRx := 0, TotalTx := 0, LastRx := rx, LastTx := tx }
  { tm with dailyUsage := some { du with Interfaces := mapSet du.Interfaces iface entry } }

/-- Go `initDailyUsage`. -/
def initDailyUsage (env : Env) (tm : TrafficMonitor) : TrafficMonitor :=
  let tm0 : TrafficMonitor :=
    { tm with dailyUsage := some { Date := env.today, Interfaces := [] } }
  saveDailyUsage env (tm.interfaces.foldl (initInterfaceUsageLocked env) tm0)

/-- How a call of `loadDailyUsage` ends. -/
inductive LoadResult where
  /-- It returns `nil` and leaves this state. -/
  | ok (tm : TrafficMonitor)
  /-- It returns the error of `ioutil.ReadFile` or of `json.Unmarshal`. -/
  | error
  /-- It panics: an entry is assigned in a nil map (line 240), or a nil
  entry is dereferenced (line 195). -/
  | panic
deriving DecidableEq, Repr

/-- Lines 161-198 of `loadDailyUsage` for a document of today that has an
`interfaces` object with non-nil entries. -/
def loadSameDay (env : Env) (tm : TrafficMonitor) (usage : DailyUsage) : TrafficMonitor :=
  let missingInterfaces :=
    tm.interfaces.filter (fun iface => (mapGet usage.Interfaces iface).isNone)
  if missingInterfaces.length > 0 then
    let tm1 : TrafficMonitor :=
      match tm.dailyUsage with
      | none => { tm with dailyUsage := some usage }
      | some _ => tm
    saveDailyUsage env (missingInterfaces.foldl (initInterfaceUsageLocked env) tm1)
  else
    { tm with dailyUsage := some usage }

/-- Go `loadDailyUsage`. With a nil map every monitored interface is missing:
when the monitor has no snapshot yet, the nil map of the file is adopted and
the first `initInterfaceUsageLocked` panics on it. With a nil entry the
logging loop of lines 189-197 panics, whatever was done before. -/
def loadDailyUsage (env : Env) (tm : TrafficMonitor) : LoadResult :=
  match tm.disk with
  | .absent => .error
  | .corrupt => .error
  | .snapshot usage =>
    if usage.Date ≠ env.today then
      .ok (initDailyUsage env tm)
    else
      .ok (loadSameDay env tm usage)
  | .snapshotNilMap date =>
    if date ≠ env.today then
      .ok (initDailyUsage env tm)
    else if tm.interfaces.length > 0 then
      match tm.dailyUsage with
      | none => .panic
      | some _ =>
        .ok (saveDailyUsage env (tm.interfaces.foldl (initInterfaceUsageLocked env) tm))
    else
      .ok { tm with dailyUsage := some { Date := date, Interfaces := [] } }
  | .snapshotNullEntry date =>
    if date ≠ env.today then
      .ok (initDailyUsage env tm)
    else
      .panic

/-- Go `Start`, lines 77-81: load the usage file, start fresh when that
returns an error; `none` when the load panics, which ends the process. -/
def startDailyUsage (env : Env) (tm : TrafficMonitor) : Option TrafficMonitor :=
  match loadDailyUsage env tm with
  | .error => some (initDailyUsage env tm)
  | .ok tm' => some tm'
  | .panic => none

/-- Go `ResetStats`. -/
def ResetStats (env : Env) (tm : TrafficMonitor) : TrafficMonitor :=
  match tm.dailyUsage with
  | none => tm
  | some d =>
    let d' : DailyUsage :=
      { d with Interfaces :=
          d.Interfaces.map (fun e => (e.1, { e.2 with TotalRx := 0, TotalTx := 0 })) }
    saveDailyUsage env { tm with dailyUsage := some d' }

/-- Go `GetDailyUsage`: a deep copy of the snapshot. -/
def GetDailyUsage (tm : TrafficMonitor) : Option DailyUsage := tm.dailyUsage

/-! ## Reporter (`reporter.go`, lines 95-212) -/

/-- The fields of the reporter's Go struct `Config` that `sendReport` reads
for the report and the retry loop. `RetryDelay` is a `time.Duration`. -/
structure Config where
  DeviceID : String
  RetryAttempts : Int
  RetryDelay : Int
deriving DecidableEq, Repr

/-- Go struct `InterfaceUsageReport`; the two megabyte fields are the
`float64` quotients of `TotalRx` and `TotalTx` by `1024*1024`. -/
structure InterfaceUsageReport where
  Interface : String
  TotalRx : Nat
  TotalTx : Nat
deriving DecidableEq, Repr

/-- Go struct `DailyUsageReport` without its timestamp. `TotalRx` and
`TotalTx` are the `uint64` accumulators `totalRx` and `totalTx` whose
quotients by `1024*1024` are the fields `TotalRxMB` and `TotalTxMB`. -/
structure DailyUsageReport where
  DeviceID : String
  Date : String
  Interfaces : List InterfaceUsageReport
  TotalRx : Nat
  TotalTx : Nat
deriving DecidableEq, Repr

/-- Go `sort.Strings`: ascending byte-wise order, which on UTF-8 strings is
the lexicographic order of the code points. -/
def sortStrings (names : List String) : List String :=
  names.insertionSort (fun a b => a.toList ≤ b.toList)

/-- The loop of `sendReport`, lines 117-133, over the sorted names: the
interface reports so far and the two accumulators. -/
def addInterfaceReports (usage : DailyUsage) :
    List String → List InterfaceUsageReport × Nat × Nat →
    List InterfaceUsageReport × Nat × Nat
  | [], acc => acc
  | iface :: rest, (reports, totalRx, totalTx) =>
    match mapGet usage.Interfaces iface with
    | none => addInterfaceReports usage rest (reports, totalRx, totalTx)
    | some stats =>
      addInterfaceReports usage rest
        (reports ++ [{ Interface := iface, TotalRx := stats.TotalRx, TotalTx := stats.TotalTx }],
         add64 totalRx stats.TotalRx, add64 totalTx stats.TotalTx)

/-- The report `sendReport` builds from a snapshot, lines 105-145. -/
def buildReport (cfg : Config) (usage : DailyUsage) : DailyUsageReport :=
  let interfaceNames := sortStrings (mapKeys usage.Interfaces)
  let (interfaceReports, totalRx, totalTx) :=
    addInterfaceReports usage interfaceNames ([], 0, 0)
  { DeviceID := cfg.DeviceID
    Date := usage.Date
    Interfaces := interfaceReports
    TotalRx := totalRx
    TotalTx := totalTx }

/-- What `r.httpClient.Do(req)` returns for one attempt. -/
inductive HttpResult where
  /-- A non-nil error: the request failed at the transport level. -/
  | transportError (err : String)
  /-- A response with this status code; `decodable` tells whether its body
  decodes to a `ServerResponse`. -/
  | response (status : Nat) (decodable : Bool)
deriving DecidableEq, Repr

/-- The network as `sendReport` meets it. -/
structure Server where
  /-- The error of `http.NewRequest` for the configured URL, if any. -/
  newRequestError : Option String
  /-- The outcome of `httpClient.Do` at each attempt number. -/
  roundTrip : Int → HttpResult

/-- The observable actions of `sendReport`. -/
inductive Event where
  /-- The call `httpClient.Do(req)` of an attempt, with the report sent. -/
  | request (attempt : Int) (body : DailyUsageReport)
  /-- The call `time.Sleep(r.config.RetryDelay)`. -/
  | sleep (delay : Int)
deriving DecidableEq, Repr

/-- The errors `sendReport` builds with `fmt.Errorf`. -/
inductive ReportError where
  /-- The text `failed to create request`, wrapping the error. -/
  | createRequest (err : String)
  /-- The text `request failed`, wrapping the transport error. -/
  | requestFailed (err : String)
  /-- The text `server returned status`, with the status code. -/
  | serverStatus (status : Nat)
deriving DecidableEq, Repr

/-- The anonymous function of lines 183-205, as its effect on `lastErr`: a
status other than 200 is stored, anything else only logs. -/
def handleResponse (lastErr : Option ReportError) (status : Nat) : Option ReportError :=
  if status ≠ 200 then some (.serverStatus status) else lastErr

/-- The retry loop of `sendReport`, lines 158-212: `attempt` and `lastErr`
are the loop variables, `trace` the actions so far, and the result is the
trace with the returned error (`none` for `nil`). The first argument bounds
the number of iterations; the loop condition is tested as in the source. -/
def sendLoop (cfg : Config) (srv : Server) (body : DailyUsageReport) :
    Nat → Int → Option ReportError → List Event → List Event × Option ReportError
  | 0, _, lastErr, trace => (trace, lastErr)
  | fuel + 1, attempt, lastErr, trace =>
    if attempt ≤ cfg.RetryAttempts then
      match srv.newRequestError with
      | some err => (trace, some (.createRequest err))
      | none =>
        match srv.roundTrip attempt with
        | .transportError err =>
          let lastErr := some (ReportError.requestFailed err)
          if attempt < cfg.RetryAttempts then
            sendLoop cfg srv body fuel (attempt + 1) lastErr
              (trace ++ [.request attempt body, .sleep cfg.RetryDelay])
          else
            (trace ++ [.request attempt body], lastErr)
        | .response status _ =>
          let _lastErr := handleResponse lastErr status
          (trace ++ [.request attempt body], none)
    else
      (trace, lastErr)

/-- Go `sendReport`: `usage` is what `r.monitor.GetDailyUsage()` returned.
The loop runs for at most `RetryAttempts` iterations. -/
def sendReport (cfg : Config) (srv : Server) (usage : Option DailyUsage) :
    List Event × Option ReportError :=
  match usage with
  | none => ([], none)
  | some u => sendLoop cfg srv (buildReport cfg u) cfg.RetryAttempts.toNat 1 none []

/-! ## Interface discovery (`traffic.go`, lines 94-139) -/

/-- Go `pcap.Interface`, the fields `discoverInterfaces` reads. -/
structure Device where
  Name : String
  Addresses : List String
deriving DecidableEq, Repr

/-- The system as `discoverInterfaces` meets it. -/
structure System where
  /-- The result of `pcap.FindAllDevs()`, `none` when it returns an error. -/
  devices : Option (List Device)
  /-- Go `hasInterfaceStats`: both statistics files of the interface exist. -/
  hasInterfaceStats : String → Bool

/-- The errors `discoverInterfaces` returns. -/
inductive DiscoverError where
  /-- The text `failed to find network devices`. -/
  | findDevices
  /-- The text `interface ... not found or no statistics available`. -/
  | notFound (iface : String)
  /-- The text `no suitable network interfaces found`. -/
  | noSuitable
deriving DecidableEq, Repr

/-- The loop of lines 104-111: the names of the devices that have an address
and statistics files, in the order of the enumeration. -/
def activeInterfaces (sys : System) (devices : List Device) : List String :=
  (devices.filter
    (fun dev => decide (dev.Addresses.length > 0) && sys.hasInterfaceStats dev.Name)).map
    (fun dev => dev.Name)

/-- Go `discoverInterfaces`: the value assigned to `tm.interfaces`, or the
error returned. `configInterface` is `tm.config.Interface`. -/
def discoverInterfaces (sys : System) (configInterface : String) :
    Except DiscoverError (List String) :=
  match sys.devices with
  | none => .error .findDevices
  | some devices =>
    let found : Except DiscoverError (List String) :=
      if configInterface = "any" then
        .ok (activeInterfaces sys devices)
      else if sys.hasInterfaceStats configInterface then
        .ok [configInterface]
      else
        .error (.notFound configInterface)
    match found with
    | .error e => .error e
    | .ok interfaces =>
      if interfaces.length = 0 then .error .noSuitable
      else .ok (sortStrings interfaces)

/-! ## Configuration validation (`config.go`, lines 121-132) -/

/-- The fields of Go `ServerConfig` that `validate` reads. -/
structure ServerConfig where
  Host : String
  Port : Int
  DeviceID : String
deriving DecidableEq, Repr

/-- The field of Go `ReporterConfig` that becomes `RetryAttempts` of the
reporter in `daemon.New`. -/
structure ReporterConfig where
  RetryAttempts : Int
deriving DecidableEq, Repr

/-- Go `config.Config`, its server and reporter sections. -/
structure AppConfig where
  Server : ServerConfig
  Reporter : ReporterConfig
deriving DecidableEq, Repr

/-- Go `validate`: the error text, `none` for `nil`. -/
def validate (config : AppConfig) : Option String :=
  if config.Server.Host = "" then
    some "server host cannot be empty"
  else if config.Server.Port ≤ 0 ∨ config.Server.Port > 65535 then
    some "server port must be between 1 and 65535"
  else if config.Server.DeviceID = "" then
    some "device ID cannot be empty"
  else
    none

/-! ## Fixtures for the concrete scenarios -/

/-- A counter source that reports the same pair for every interface. -/
def csConst (rx tx : Nat) : CounterSource :=
  { rx := fun _ => some rx, tx := fun _ => some tx }

/-- A counter source none of whose files can be read. -/
def csFail : CounterSource :=
  { rx := fun _ => none, tx := fun _ => none }

/-- A counter source whose received counters all stand at `rx` and whose
sent counters cannot be read. -/
def csRxOnly (rx : Nat) : CounterSource :=
  { rx := fun _ => some rx, tx := fun _ => none }

/-- An environment in which the usage file is written successfully. -/
def envOk (today : String) (cs : CounterSource) : Env :=
  { today := today, counters := cs, fs := .ok }

/-- A server that answers every request with the same status code. -/
def srvStatus (status : Nat) : Server :=
  { newRequestError := none, roundTrip := fun _ => .response status false }

/-- A server that no request reaches: attempt `k` fails with the transport
error `errors k`. -/
def srvDown (errors : Int → String) : Server :=
  { newRequestError := none, roundTrip := fun k => .transportError (errors k) }

/-- A snapshot holding `eth0` alone. -/
def usageEth0 : DailyUsage :=
  { Date := "2026-11-04", Interfaces := [("eth0", ⟨"eth0", 500, 500, 1500, 2500⟩)] }

/-- A monitor of `eth0` alone before `Start`, no usage file on disk. -/
def tmEth0 : TrafficMonitor :=
  { interfaces := ["eth0"], dailyUsage := none, disk := .absent }

/-! ## Auxiliary definitions for the statements -/

/-- The requests of attempts `first, first+1, ...` (`count` of them) with a
sleep between consecutive ones. -/
def retryTrace (cfg : Config) (body : DailyUsageReport) (first count : Nat) : List Event :=
  List.intersperse (Event.sleep cfg.RetryDelay)
    ((List.range' first count).map (fun k => Event.request (k : Int) body))

/-- Requests in a trace. -/
def countRequests (trace : List Event) : Nat :=
  (trace.filter (fun e => match e with | .request _ _ => true | .sleep _ => false)).length

/-- Sleeps in a trace. -/
def countSleeps (trace : List Event) : Nat :=
  (trace.filter (fun e => match e with | .request _ _ => false | .sleep _ => true)).length

/-- What `saveDailyUsage` leaves on disk when asked to write `d` over the
content `before`. -/
def diskAfterSave (env : Env) (before : FileContent) (d : DailyUsage) : FileContent :=
  match env.fs with
  | .ok => .snapshot d
  | .mkdirFailed => before
  | .writeFailed left => left

/-- The entry `initInterfaceUsageLocked` stores for an interface: totals 0
and the counters just read, or zeros when the read fails. -/
def seedEntry (env : Env) (iface : String) : InterfaceUsage :=
  match readInterfaceCounters env.counters iface with
  | some r => { Interface := iface, TotalRx := 0, TotalTx := 0, LastRx := r.1, LastTx := r.2 }
  | none => { Interface := iface, TotalRx := 0, TotalTx := 0, LastRx := 0, LastTx := 0 }

/-- The map after seeding the interfaces of a list one after the other. -/
def seedAll (env : Env) (l : List String) (m : IfaceMap) : IfaceMap :=
  l.foldl (fun acc i => mapSet acc i (seedEntry env i)) m

/-- The state of one interface after the ticks whose counter sources are
`css`, in order: `updateInterfaceUsage` once per tick. -/
def runTicks (css : List CounterSource) (iface : String) (stats : InterfaceUsage) :
    InterfaceUsage :=
  css.foldl (fun st cs => updateInterfaceUsage cs iface st) stats

/-- A system whose enumeration succeeds and where every interface has its
statistics files. -/
def sysAll (devices : List Device) : System :=
  { devices := some devices, hasInterfaceStats := fun _ => true }

/-- The snapshot of scenario 3: `eth0` with 1 MiB received, `wlan0` with
2 MiB sent, stored in the other order. -/
def usageTwo : DailyUsage :=
  { Date := "2026-11-04",
    Interfaces := [("wlan0", ⟨"wlan0", 0, 2097152, 0, 0⟩), ("eth0", ⟨"eth0", 1048576, 0, 0, 0⟩)] }

/-- A counter source that reports `eth0` for the interface `eth0` and `other`
for every other interface. -/
def csPer (eth0 other : Nat × Nat) : CounterSource :=
  { rx := fun i => if i = "eth0" then some eth0.1 else some other.1,
    tx := fun i => if i = "eth0" then some eth0.2 else some other.2 }

/-- A monitor of `eth0` and `wlan0` before `Start`, no usage file on disk. -/
def tmTwo : TrafficMonitor :=
  { interfaces := ["eth0", "wlan0"], dailyUsage := none, disk := .absent }

/-! ## Arithmetic facts -/

theorem add64_lt (a b : Nat) : add64 a b < 2 ^ 64 := by
  unfold add64; omega

theorem sub64_lt (a b : Nat) : sub64 a b < 2 ^ 64 := by
  unfold sub64; omega

theorem sub64_of_le {a b : Nat} (hb : b ≤ a) (ha : a < 2 ^ 64) : sub64 a b = a - b := by
  unfold sub64; omega

theorem readCounter_lt {file : Option Nat} {v : Nat} (h : readCounter file = some v) :
    v < 2 ^ 64 := by
  unfold readCounter at h
  cases file with
  | none => exact absurd h (by simp)
  | some w =>
    have h' : (if w < 2 ^ 64 then some w else none) = some v := h
    by_cases hw : w < 2 ^ 64
    · rw [if_pos hw] at h'
      exact Option.some.inj h' ▸ hw
    · rw [if_neg hw] at h'
      exact absurd h' (by simp)

theorem readInterfaceCounters_lt {cs : CounterSource} {iface : String} {rx tx : Nat}
    (h : readInterfaceCounters cs iface = some (rx, tx)) : rx < 2 ^ 64 ∧ tx < 2 ^ 64 := by
  unfold readInterfaceCounters at h
  cases h1 : readCounter (cs.rx iface) with
  | none => simp [h1] at h
  | some a =>
    cases h2 : readCounter (cs.tx iface) with
    | none => simp [h1, h2] at h
    | some b =>
      simp [h1, h2] at h
      exact ⟨h.1 ▸ readCounter_lt h1, h.2 ▸ readCounter_lt h2⟩

theorem updateInterfaceUsage_of_read {cs : CounterSource} {iface : String} {rx tx : Nat}
    (stats : InterfaceUsage) (h : readInterfaceCounters cs iface = some (rx, tx)) :
    updateInterfaceUsage cs iface stats =
      { stats with
        TotalRx := add64 stats.TotalRx (sub64 rx stats.LastRx)
        TotalTx := add64 stats.TotalTx (sub64 tx stats.LastTx)
        LastRx := rx
        LastTx := tx } := by
  simp [updateInterfaceUsage, h]

theorem updateInterfaceUsage_of_fail {cs : CounterSource} {iface : String}
    (stats : InterfaceUsage) (h : readInterfaceCounters cs iface = none) :
    updateInterfaceUsage cs iface stats = stats := by
  simp [updateInterfaceUsage, h]

/-! ## C1 -/

/-- C1: on a successful read `(rawRx, rawTx)`, `updateInterfaceUsage` adds the
wrapping difference between the read and the stored last value to each total,
modulo `2^64`, and stores the read as the new last value. Seeding `eth0` at
`(1000, 2000)` and ticking at `(1500, 2500)` gives totals `500`, `500` and
last values `1500`, `2500`. -/
theorem C1_updateInterfaceUsage_adds_wrapping_delta (cs : CounterSource) (iface : String)
    (stats : InterfaceUsage) (rawRx rawTx : Nat) (hwf : stats.WF)
    (hread : readInterfaceCounters cs iface = some (rawRx, rawTx)) :
    ((updateInterfaceUsage cs iface stats).TotalRx : Int)
        = ((stats.TotalRx : Int) + ((rawRx : Int) - (stats.LastRx : Int))) % 2 ^ 64
      ∧ ((updateInterfaceUsage cs iface stats).TotalTx : Int)
        = ((stats.TotalTx : Int) + ((rawTx : Int) - (stats.LastTx : Int))) % 2 ^ 64
      ∧ (updateInterfaceUsage cs iface stats).LastRx = rawRx
      ∧ (updateInterfaceUsage cs iface stats).LastTx = rawTx
      ∧ (updateInterfaceUsage cs iface stats).Interface = stats.Interface
      ∧ (updateInterfaceUsage cs iface stats).WF
      ∧ (updateDailyUsage (envOk "2026-11-04" (csConst 1500 2500))
            (initDailyUsage (envOk "2026-11-04" (csConst 1000 2000)) tmEth0)).dailyUsage
          = some { Date := "2026-11-04",
                   Interfaces := [("eth0", ⟨"eth0", 500, 500, 1500, 2500⟩)] } := by
  obtain ⟨hrx, htx⟩ := readInterfaceCounters_lt hread
  obtain ⟨h1, h2, h3, h4⟩ := hwf
  rw [updateInterfaceUsage_of_read stats hread]
  refine ⟨?_, ?_, rfl, rfl, rfl, ⟨add64_lt _ _, add64_lt _ _, hrx, htx⟩, by decide⟩
  · show ((add64 stats.TotalRx (sub64 rawRx stats.LastRx) : Nat) : Int) = _
    unfold add64 sub64; omega
  · show ((add64 stats.TotalTx (sub64 rawTx stats.LastTx) : Nat) : Int) = _
    unfold add64 sub64; omega

/-- The scenario of C1 as an instance of the theorem: the state seeded at
`(1000, 2000)` updated by the read `(1500, 2500)`. -/
theorem C1_witness :
    (updateInterfaceUsage (csConst 1500 2500) "eth0" ⟨"eth0", 0, 0, 1000, 2000⟩).LastRx = 1500 :=
  (C1_updateInterfaceUsage_adds_wrapping_delta (csConst 1500 2500) "eth0"
    ⟨"eth0", 0, 0, 1000, 2000⟩ 1500 2500 (by decide) (by decide)).2.2.1

/-! ## The retry loop -/

theorem retryTrace_one (cfg : Config) (body : DailyUsageReport) (first : Nat) :
    retryTrace cfg body first 1 = [Event.request (first : Int) body] := by
  simp [retryTrace, List.range']

theorem retryTrace_succ_succ (cfg : Config) (body : DailyUsageReport) (first m : Nat) :
    retryTrace cfg body first (m + 2)
      = Event.request (first : Int) body :: Event.sleep cfg.RetryDelay
          :: retryTrace cfg body (first + 1) (m + 1) := by
  simp [retryTrace, List.range']

/-- With every attempt failing at the transport level, the loop started at
attempt `k + 1` with `m + 1` attempts left runs them all, whatever bound at
least `m + 1` it is given. -/
theorem sendLoop_transport (cfg : Config) (srv : Server) (body : DailyUsageReport)
    (errors : Int → String) (hreq : srv.newRequestError = none) :
    ∀ (m k fuel : Nat) (lastErr : Option ReportError) (trace : List Event),
      cfg.RetryAttempts = ((k + m + 1 : Nat) : Int) → m + 1 ≤ fuel →
      (∀ a : Int, 1 ≤ a → a ≤ cfg.RetryAttempts →
        srv.roundTrip a = .transportError (errors a)) →
      sendLoop cfg srv body fuel ((k + 1 : Nat) : Int) lastErr trace
        = (trace ++ retryTrace cfg body (k + 1) (m + 1),
           some (.requestFailed (errors cfg.RetryAttempts))) := by
  intro m
  induction m with
  | zero =>
    intro k fuel lastErr trace hN hfuel hfail
    obtain ⟨f, rfl⟩ : ∃ f, fuel = f + 1 := ⟨fuel - 1, by omega⟩
    have hle : ((k + 1 : Nat) : Int) ≤ cfg.RetryAttempts := by omega
    have hnlt : ¬ ((k + 1 : Nat) : Int) < cfg.RetryAttempts := by omega
    have hrt := hfail ((k + 1 : Nat) : Int) (by omega) hle
    have heq : ((k + 1 : Nat) : Int) = cfg.RetryAttempts := by omega
    simp only [sendLoop, if_pos hle, hreq, hrt, if_neg hnlt, Nat.zero_add, retryTrace_one]
    rw [heq]
  | succ m ih =>
    intro k fuel lastErr trace hN hfuel hfail
    obtain ⟨f, rfl⟩ : ∃ f, fuel = f + 1 := ⟨fuel - 1, by omega⟩
    have hle : ((k + 1 : Nat) : Int) ≤ cfg.RetryAttempts := by omega
    have hlt : ((k + 1 : Nat) : Int) < cfg.RetryAttempts := by omega
    have hrt := hfail ((k + 1 : Nat) : Int) (by omega) hle
    have hnext : ((k + 1 : Nat) : Int) + 1 = ((k + 1 + 1 : Nat) : Int) := by omega
    simp only [sendLoop, if_pos hle, hreq, hrt, if_pos hlt]
    rw [hnext, ih (k + 1) f _ _ (by omega) (by omega) hfail, retryTrace_succ_succ]
    simp

theorem retryTrace_counts (cfg : Config) (body : DailyUsageReport) :
    ∀ (m first : Nat),
      countRequests (retryTrace cfg body first (m + 1)) = m + 1
      ∧ countSleeps (retryTrace cfg body first (m + 1)) = m
      ∧ (retryTrace cfg body first (m + 1)).getLast?
          = some (Event.request ((first + m : Nat) : Int) body) := by
  intro m
  induction m with
  | zero =>
    intro first
    simp [retryTrace_one, countRequests, countSleeps]
  | succ m ih =>
    intro first
    obtain ⟨h1, h2, h3⟩ := ih (first + 1)
    rw [retryTrace_succ_succ]
    simp only [countRequests, countSleeps] at h1 h2 ⊢
    refine ⟨?_, ?_, ?_⟩
    · simp [List.filter_cons, h1]
    · simp [List.filter_cons, h2]
    · rw [List.getLast?_cons, List.getLast?_cons, h3]
      simp only [Option.getD_some]
      congr 3
      omega

/-- The loop returns `nil` as soon as a request is answered, whatever the
status: the `return` of line 188 leaves only the anonymous function. -/
theorem sendLoop_response (cfg : Config) (srv : Server) (body : DailyUsageReport)
    (fuel : Nat) (attempt : Int) (lastErr : Option ReportError) (trace : List Event)
    (status : Nat) (decodable : Bool) (hle : attempt ≤ cfg.RetryAttempts)
    (hreq : srv.newRequestError = none)
    (hresp : srv.roundTrip attempt = .response status decodable) :
    sendLoop cfg srv body (fuel + 1) attempt lastErr trace
      = (trace ++ [Event.request attempt body], none) := by
  simp only [sendLoop, if_pos hle, hreq, hresp]

/-- A server that answers the first request with any status ends
`sendReport` after that one request, with `nil`. -/
theorem sendReport_status_once (cfg : Config) (status : Nat) (usage : DailyUsage)
    (hN : 1 ≤ cfg.RetryAttempts) :
    sendReport cfg (srvStatus status) (some usage)
      = ([Event.request 1 (buildReport cfg usage)], none) := by
  obtain ⟨f, hf⟩ : ∃ f, cfg.RetryAttempts.toNat = f + 1 :=
    ⟨cfg.RetryAttempts.toNat - 1, by omega⟩
  simp only [sendReport, hf]
  rw [sendLoop_response cfg (srvStatus status) _ f 1 none [] status false hN rfl rfl]
  rfl

/-! ## C2 -/

/-- C2 (the code at the failing input): with three configured attempts and a
server that answers every request with status 500, `sendReport` sends one
request, not three, and returns `nil`, not an error derived from the
status. -/
theorem C2_sendReport_status_sends_once_returns_nil :
    sendReport ⟨"dev", 3, 5⟩ (srvStatus 500) (some usageEth0)
      = ([Event.request 1 (buildReport ⟨"dev", 3, 5⟩ usageEth0)], none) := by
  decide

/-! ## C3 -/

/-- C3: with `N ≥ 1` configured attempts and every request failing at the
transport level, `sendReport` performs the requests of attempts `1, ..., N`
with one sleep of the configured delay between consecutive requests and none
after the last (`N` requests, `N - 1` sleeps), and returns the error wrapping
the transport error of attempt `N`. A larger iteration bound changes
nothing. -/
theorem C3_sendReport_transport_failure_retries (cfg : Config) (srv : Server)
    (usage : DailyUsage) (errors : Int → String)
    (hN : 1 ≤ cfg.RetryAttempts) (hreq : srv.newRequestError = none)
    (hfail : ∀ a : Int, 1 ≤ a → a ≤ cfg.RetryAttempts →
      srv.roundTrip a = .transportError (errors a)) :
    sendReport cfg srv (some usage)
        = (retryTrace cfg (buildReport cfg usage) 1 cfg.RetryAttempts.toNat,
           some (.requestFailed (errors cfg.RetryAttempts)))
      ∧ countRequests (sendReport cfg srv (some usage)).1 = cfg.RetryAttempts.toNat
      ∧ countSleeps (sendReport cfg srv (some usage)).1 = cfg.RetryAttempts.toNat - 1
      ∧ (sendReport cfg srv (some usage)).1.getLast?
          = some (Event.request cfg.RetryAttempts (buildReport cfg usage))
      ∧ ∀ fuel, cfg.RetryAttempts.toNat ≤ fuel →
          sendLoop cfg srv (buildReport cfg usage) fuel 1 none []
            = sendReport cfg srv (some usage) := by
  obtain ⟨m, hm⟩ : ∃ m, cfg.RetryAttempts.toNat = m + 1 :=
    ⟨cfg.RetryAttempts.toNat - 1, by omega⟩
  have hNm : cfg.RetryAttempts = ((0 + m + 1 : Nat) : Int) := by omega
  have hloop : ∀ fuel, m + 1 ≤ fuel →
      sendLoop cfg srv (buildReport cfg usage) fuel 1 none []
        = (retryTrace cfg (buildReport cfg usage) 1 (m + 1),
           some (.requestFailed (errors cfg.RetryAttempts))) := by
    intro fuel hfuel
    have h := sendLoop_transport cfg srv (buildReport cfg usage) errors hreq m 0 fuel none []
      hNm hfuel hfail
    simpa using h
  have hsend : sendReport cfg srv (some usage)
      = (retryTrace cfg (buildReport cfg usage) 1 (m + 1),
         some (.requestFailed (errors cfg.RetryAttempts))) := by
    simp only [sendReport, hm]
    exact hloop (m + 1) (Nat.le_refl _)
  obtain ⟨hc1, hc2, hc3⟩ := retryTrace_counts cfg (buildReport cfg usage) m 1
  rw [hsend, hm]
  refine ⟨rfl, hc1, by simpa using hc2, ?_, fun fuel hfuel => hloop fuel hfuel⟩
  rw [hc3]
  congr 2
  omega

/-- C3 at three attempts against a server that is down: request, sleep,
request, sleep, request, then the third transport error. -/
theorem C3_witness :
    sendReport ⟨"dev", 3, 5⟩ (srvDown (fun _ => "connection refused")) (some usageEth0)
      = ([Event.request 1 (buildReport ⟨"dev", 3, 5⟩ usageEth0), Event.sleep 5,
          Event.request 2 (buildReport ⟨"dev", 3, 5⟩ usageEth0), Event.sleep 5,
          Event.request 3 (buildReport ⟨"dev", 3, 5⟩ usageEth0)],
         some (.requestFailed "connection refused")) :=
  (C3_sendReport_transport_failure_retries ⟨"dev", 3, 5⟩
    (srvDown (fun _ => "connection refused")) usageEth0 (fun _ => "connection refused")
    (by decide) rfl (fun _ _ _ => rfl)).1.trans (by decide)

/-! ## Facts about maps -/

theorem mapGet_mapSet_self (m : IfaceMap) (k : String) (v : InterfaceUsage) :
    mapGet (mapSet m k v) k = some v := by
  induction m with
  | nil => simp [mapSet, mapGet]
  | cons e rest ih =>
    obtain ⟨k0, v0⟩ := e
    by_cases h : k0 = k
    · simp [mapSet, mapGet, h]
    · simp [mapSet, mapGet, h, ih]

theorem mapGet_mapSet_ne (m : IfaceMap) {k x : String} (v : InterfaceUsage) (hne : x ≠ k) :
    mapGet (mapSet m k v) x = mapGet m x := by
  induction m with
  | nil => simp [mapSet, mapGet, Ne.symm hne]
  | cons e rest ih =>
    obtain ⟨k0, v0⟩ := e
    by_cases h : k0 = k
    · subst h
      simp [mapSet, mapGet, Ne.symm hne]
    · by_cases hx : k0 = x
      · subst hx
        simp [mapSet, mapGet, h]
      · simp [mapSet, mapGet, h, hx, ih]

theorem mem_mapKeys_mapSet (m : IfaceMap) (k x : String) (v : InterfaceUsage) :
    x ∈ mapKeys (mapSet m k v) ↔ x = k ∨ x ∈ mapKeys m := by
  induction m with
  | nil => simp [mapSet, mapKeys]
  | cons e rest ih =>
    obtain ⟨k0, v0⟩ := e
    by_cases h : k0 = k
    · subst h
      simp [mapSet, mapKeys]
    · have ih' : x ∈ List.map Prod.fst (mapSet rest k v) ↔ x = k ∨ x ∈ List.map Prod.fst rest := ih
      simp only [mapSet, if_neg h, mapKeys, List.map_cons, List.mem_cons, ih']
      tauto

theorem nodup_mapKeys_mapSet (m : IfaceMap) (k : String) (v : InterfaceUsage)
    (hm : (mapKeys m).Nodup) : (mapKeys (mapSet m k v)).Nodup := by
  induction m with
  | nil => simp [mapSet, mapKeys]
  | cons e rest ih =>
    obtain ⟨k0, v0⟩ := e
    have hm' : k0 ∉ mapKeys rest ∧ (mapKeys rest).Nodup := by
      simpa [mapKeys] using hm
    by_cases h : k0 = k
    · subst h
      simpa [mapSet, mapKeys] using hm
    · have hnot : k0 ∉ mapKeys (mapSet rest k v) := by
        rw [mem_mapKeys_mapSet]
        intro hc
        cases hc with
        | inl h1 => exact h h1
        | inr h2 => exact hm'.1 h2
      have hnd := ih hm'.2
      simp only [mapSet, if_neg h]
      exact List.nodup_cons.mpr ⟨hnot, hnd⟩

theorem mapGet_eq_none_iff (m : IfaceMap) (k : String) :
    mapGet m k = none ↔ k ∉ mapKeys m := by
  induction m with
  | nil => simp [mapGet, mapKeys]
  | cons e rest ih =>
    obtain ⟨k0, v0⟩ := e
    have ih' : mapGet rest k = none ↔ k ∉ List.map Prod.fst rest := ih
    by_cases h : k0 = k
    · simp [mapGet, mapKeys, h]
    · simp only [mapGet, if_neg h, mapKeys, List.map_cons, List.mem_cons, ih']
      constructor
      · intro h1 hc
        cases hc with
        | inl h2 => exact h h2.symm
        | inr h2 => exact h1 h2
      · intro h1 hc
        exact h1 (Or.inr hc)

theorem mapGet_map (f : String → InterfaceUsage → InterfaceUsage) (m : IfaceMap)
    (k : String) :
    mapGet (m.map (fun e => (e.1, f e.1 e.2))) k = (mapGet m k).map (f k) := by
  induction m with
  | nil => simp [mapGet]
  | cons e rest ih =>
    obtain ⟨k0, v0⟩ := e
    by_cases h : k0 = k
    · simp [mapGet, h]
    · simp [mapGet, h, ih]

theorem mapKeys_map (f : String → InterfaceUsage → InterfaceUsage) (m : IfaceMap) :
    mapKeys (m.map (fun e => (e.1, f e.1 e.2))) = mapKeys m := by
  simp [mapKeys, List.map_map, Function.comp_def]

/-! ## Facts about seeding -/

theorem seedEntry_of_read {env : Env} {iface : String} {rx tx : Nat}
    (h : readInterfaceCounters env.counters iface = some (rx, tx)) :
    seedEntry env iface = ⟨iface, 0, 0, rx, tx⟩ := by
  simp [seedEntry, h]

theorem seedEntry_of_fail {env : Env} {iface : String}
    (h : readInterfaceCounters env.counters iface = none) :
    seedEntry env iface = ⟨iface, 0, 0, 0, 0⟩ := by
  simp [seedEntry, h]

theorem initInterfaceUsageLocked_some (env : Env) (tm : TrafficMonitor) (iface : String)
    (d : DailyUsage) (h : tm.dailyUsage = some d) :
    initInterfaceUsageLocked env tm iface
      = { tm with
          dailyUsage := some ⟨d.Date, mapSet d.Interfaces iface (seedEntry env iface)⟩ } := by
  cases hr : readInterfaceCounters env.counters iface with
  | none => simp [initInterfaceUsageLocked, seedEntry, hr, h]
  | some r => simp [initInterfaceUsageLocked, seedEntry, hr, h]

theorem initInterfaceUsageLocked_none (env : Env) (tm : TrafficMonitor) (iface : String)
    (h : tm.dailyUsage = none) :
    initInterfaceUsageLocked env tm iface
      = { tm with dailyUsage := some ⟨env.today, [(iface, seedEntry env iface)]⟩ } := by
  cases hr : readInterfaceCounters env.counters iface with
  | none => simp [initInterfaceUsageLocked, seedEntry, hr, h, mapSet]
  | some r => simp [initInterfaceUsageLocked, seedEntry, hr, h, mapSet]

theorem foldl_initInterfaceUsageLocked (env : Env) (l : List String) :
    ∀ (tm : TrafficMonitor) (d : DailyUsage), tm.dailyUsage = some d →
      l.foldl (initInterfaceUsageLocked env) tm
        = { tm with dailyUsage := some ⟨d.Date, seedAll env l d.Interfaces⟩ } := by
  induction l with
  | nil =>
    intro tm d h
    cases tm
    simp only [List.foldl_nil, seedAll] at h ⊢
    simp [h]
  | cons i rest ih =>
    intro tm d h
    rw [List.foldl_cons, initInterfaceUsageLocked_some env tm i d h]
    rw [ih _ ⟨d.Date, mapSet d.Interfaces i (seedEntry env i)⟩ rfl]
    simp [seedAll]

theorem mapGet_seedAll_not_mem (env : Env) (l : List String) :
    ∀ (m : IfaceMap) (k : String), k ∉ l → mapGet (seedAll env l m) k = mapGet m k := by
  induction l with
  | nil => intro m k _; rfl
  | cons i rest ih =>
    intro m k hk
    have hne : k ≠ i := fun hc => hk (hc ▸ List.mem_cons_self _ _)
    have hrest : k ∉ rest := fun hc => hk (List.mem_cons_of_mem _ hc)
    have h := ih (mapSet m i (seedEntry env i)) k hrest
    rw [mapGet_mapSet_ne m _ hne] at h
    simpa [seedAll] using h

theorem mapGet_seedAll_mem (env : Env) (l : List String) :
    ∀ (m : IfaceMap) (k : String), k ∈ l →
      mapGet (seedAll env l m) k = some (seedEntry env k) := by
  induction l with
  | nil => intro m k hk; exact absurd hk (List.not_mem_nil _)
  | cons i rest ih =>
    intro m k hk
    by_cases hrest : k ∈ rest
    · have h := ih (mapSet m i (seedEntry env i)) k hrest
      simpa [seedAll] using h
    · have hki : k = i := by
        cases List.mem_cons.mp hk with
        | inl h1 => exact h1
        | inr h2 => exact absurd h2 hrest
      subst hki
      have h := mapGet_seedAll_not_mem env rest (mapSet m k (seedEntry env k)) k hrest
      rw [mapGet_mapSet_self] at h
      simpa [seedAll] using h

theorem mem_mapKeys_seedAll (env : Env) (l : List String) :
    ∀ (m : IfaceMap) (x : String),
      x ∈ mapKeys (seedAll env l m) ↔ x ∈ l ∨ x ∈ mapKeys m := by
  induction l with
  | nil => intro m x; simp [seedAll]
  | cons i rest ih =>
    intro m x
    have h := ih (mapSet m i (seedEntry env i)) x
    rw [mem_mapKeys_mapSet] at h
    have hs : seedAll env (i :: rest) m = seedAll env rest (mapSet m i (seedEntry env i)) := rfl
    rw [hs, h, List.mem_cons]
    tauto

theorem nodup_mapKeys_seedAll (env : Env) (l : List String) :
    ∀ (m : IfaceMap), (mapKeys m).Nodup → (mapKeys (seedAll env l m)).Nodup := by
  induction l with
  | nil => intro m hm; exact hm
  | cons i rest ih =>
    intro m hm
    exact ih _ (nodup_mapKeys_mapSet m i (seedEntry env i) hm)

/-- The snapshot `initDailyUsage` leaves in memory. -/
theorem initDailyUsage_dailyUsage (env : Env) (tm : TrafficMonitor) :
    (initDailyUsage env tm).dailyUsage
      = some { Date := env.today, Interfaces := seedAll env tm.interfaces [] } := by
  unfold initDailyUsage
  simp only []
  rw [foldl_initInterfaceUsageLocked env tm.interfaces _ ⟨env.today, []⟩ rfl]
  cases hfs : env.fs <;> simp [saveDailyUsage, hfs]

/-- The per-tick update never changes the date of the snapshot and never
reads the clock. -/
theorem updateDailyUsage_date (env : Env) (tm : TrafficMonitor) (d : DailyUsage)
    (h : tm.dailyUsage = some d) :
    ∃ d', (updateDailyUsage env tm).dailyUsage = some d' ∧ d'.Date = d.Date := by
  refine ⟨{ d with Interfaces :=
      d.Interfaces.map (fun e => (e.1, updateInterfaceUsage env.counters e.1 e.2)) }, ?_, rfl⟩
  cases hfs : env.fs <;> simp [updateDailyUsage, h, saveDailyUsage, hfs]

/-! ## C4 -/

/-- C4 (the code at the failing input): a tick executed on 2026-11-04 over a
snapshot dated 2026-11-03 leaves the date 2026-11-03 and performs no
rollover: the totals of `eth0` grow from 500 to 600 instead of being reset,
and the result is the same as that of a tick executed on 2026-11-03. -/
theorem C4_updateDailyUsage_keeps_stale_date :
    (updateDailyUsage (envOk "2026-11-04" (csConst 1600 2600))
        { interfaces := ["eth0"],
          dailyUsage := some
            { Date := "2026-11-03", Interfaces := [("eth0", ⟨"eth0", 500, 500, 1500, 2500⟩)] },
          disk := .absent }).dailyUsage
      = some { Date := "2026-11-03", Interfaces := [("eth0", ⟨"eth0", 600, 600, 1600, 2600⟩)] }
    ∧ updateDailyUsage (envOk "2026-11-04" (csConst 1600 2600))
        { interfaces := ["eth0"],
          dailyUsage := some
            { Date := "2026-11-03", Interfaces := [("eth0", ⟨"eth0", 500, 500, 1500, 2500⟩)] },
          disk := .absent }
      = updateDailyUsage (envOk "2026-11-03" (csConst 1600 2600))
        { interfaces := ["eth0"],
          dailyUsage := some
            { Date := "2026-11-03", Interfaces := [("eth0", ⟨"eth0", 500, 500, 1500, 2500⟩)] },
          disk := .absent } := by
  decide

/-- A file that decodes to a document of another day sends `loadDailyUsage`
to `initDailyUsage`, whatever else the document holds. -/
theorem loadDailyUsage_stale (env : Env) (tm : TrafficMonitor) (date : String)
    (hdisk : tm.disk.date? = some date) (hstale : date ≠ env.today) :
    loadDailyUsage env tm = .ok (initDailyUsage env tm) := by
  cases hd : tm.disk with
  | absent => rw [hd] at hdisk; exact absurd hdisk (by simp [FileContent.date?])
  | corrupt => rw [hd] at hdisk; exact absurd hdisk (by simp [FileContent.date?])
  | snapshot usage =>
    rw [hd] at hdisk
    have hdate : usage.Date = date := Option.some.inj hdisk
    simp only [loadDailyUsage, hd]
    rw [if_pos (hdate ▸ hstale)]
  | snapshotNilMap date0 =>
    rw [hd] at hdisk
    have hdate : date0 = date := Option.some.inj hdisk
    simp only [loadDailyUsage, hd]
    rw [if_pos (hdate ▸ hstale)]
  | snapshotNullEntry date0 =>
    rw [hd] at hdisk
    have hdate : date0 = date := Option.some.inj hdisk
    simp only [loadDailyUsage, hd]
    rw [if_pos (hdate ▸ hstale)]

/-! ## C5 -/

/-- C5: when the usage file decodes to a document of another day (with or
without an interfaces map) and every counter read succeeds, `loadDailyUsage`
succeeds and leaves in memory a snapshot dated today whose keys are exactly
the discovered interfaces, each with totals 0 and last values equal to the
counters just read; nothing of the file survives. -/
theorem C5_loadDailyUsage_stale_date_reseeds (env : Env) (tm : TrafficMonitor)
    (date : String) (hdisk : tm.disk.date? = some date)
    (hstale : date ≠ env.today)
    (hreads : ∀ i ∈ tm.interfaces, ∃ rx tx,
      readInterfaceCounters env.counters i = some (rx, tx)) :
    ∃ tm' d, loadDailyUsage env tm = .ok tm'
      ∧ tm'.interfaces = tm.interfaces
      ∧ tm'.dailyUsage = some d
      ∧ d.Date = env.today
      ∧ (∀ k, k ∈ mapKeys d.Interfaces ↔ k ∈ tm.interfaces)
      ∧ (mapKeys d.Interfaces).Nodup
      ∧ (∀ i ∈ tm.interfaces, ∃ rx tx,
          readInterfaceCounters env.counters i = some (rx, tx)
          ∧ mapGet d.Interfaces i = some ⟨i, 0, 0, rx, tx⟩) := by
  refine ⟨initDailyUsage env tm, ⟨env.today, seedAll env tm.interfaces []⟩, ?_, ?_,
    initDailyUsage_dailyUsage env tm, rfl, ?_, ?_, ?_⟩
  · exact loadDailyUsage_stale env tm date hdisk hstale
  · unfold initDailyUsage
    simp only []
    rw [foldl_initInterfaceUsageLocked env tm.interfaces _ ⟨env.today, []⟩ rfl]
    cases hfs : env.fs <;> simp [saveDailyUsage, hfs]
  · intro k
    show k ∈ mapKeys (seedAll env tm.interfaces []) ↔ _
    rw [mem_mapKeys_seedAll]
    simp [mapKeys]
  · exact nodup_mapKeys_seedAll env tm.interfaces [] (by simp [mapKeys])
  · intro i hi
    obtain ⟨rx, tx, hr⟩ := hreads i hi
    refine ⟨rx, tx, hr, ?_⟩
    show mapGet (seedAll env tm.interfaces []) i = _
    rw [mapGet_seedAll_mem env tm.interfaces [] i hi, seedEntry_of_read hr]

/-- C5 on a monitor of `eth0` whose file is dated the day before and holds
totals 500 and stale last values: the load re-seeds from the read
`(1000, 2000)`. -/
theorem C5_witness :
    ∃ tm' d, loadDailyUsage (envOk "2026-11-04" (csConst 1000 2000))
        { interfaces := ["eth0"], dailyUsage := none,
          disk := .snapshot ⟨"2026-11-03", [("eth0", ⟨"eth0", 500, 500, 7, 9⟩)]⟩ } = .ok tm'
      ∧ tm'.interfaces = ["eth0"]
      ∧ tm'.dailyUsage = some d
      ∧ d.Date = "2026-11-04"
      ∧ (∀ k, k ∈ mapKeys d.Interfaces ↔ k ∈ ["eth0"])
      ∧ (mapKeys d.Interfaces).Nodup
      ∧ (∀ i ∈ ["eth0"], ∃ rx tx,
          readInterfaceCounters (csConst 1000 2000) i = some (rx, tx)
          ∧ mapGet d.Interfaces i = some ⟨i, 0, 0, rx, tx⟩) :=
  C5_loadDailyUsage_stale_date_reseeds (envOk "2026-11-04" (csConst 1000 2000))
    { interfaces := ["eth0"], dailyUsage := none,
      disk := .snapshot ⟨"2026-11-03", [("eth0", ⟨"eth0", 500, 500, 7, 9⟩)]⟩ }
    "2026-11-03" rfl (by decide)
    (fun _ _ => ⟨1000, 2000, rfl⟩)

/-! ## C6 -/

/-- The three ways `Start` comes to synthesize a fresh snapshot all end in
`initDailyUsage`. -/
theorem startDailyUsage_fresh (env : Env) (tm : TrafficMonitor)
    (hfresh : tm.disk = .absent ∨ tm.disk = .corrupt
      ∨ ∃ date, tm.disk.date? = some date ∧ date ≠ env.today) :
    startDailyUsage env tm = some (initDailyUsage env tm) := by
  rcases hfresh with h | h | ⟨date, h, hstale⟩
  · simp [startDailyUsage, loadDailyUsage, h]
  · simp [startDailyUsage, loadDailyUsage, h]
  · simp only [startDailyUsage, loadDailyUsage_stale env tm date h hstale]

/-- C6 (counterexample): with no usage file and a counter source whose read
of `eth0` fails, the fresh snapshot seeds `eth0` with last values 0 although
the source reported no 0, and the first tick, reading `(1500, 2500)`, adds the
whole raw counters to the totals. -/
theorem C6_counterexample :
    csFail.rx "eth0" = none ∧ csFail.tx "eth0" = none
    ∧ readInterfaceCounters csFail "eth0" = none
    ∧ (startDailyUsage (envOk "2026-11-04" csFail) tmEth0).map (fun tm => tm.dailyUsage)
        = some (some ⟨"2026-11-04", [("eth0", ⟨"eth0", 0, 0, 0, 0⟩)]⟩)
    ∧ (startDailyUsage (envOk "2026-11-04" csFail) tmEth0).map
          (fun tm => (updateDailyUsage (envOk "2026-11-04" (csConst 1500 2500)) tm).dailyUsage)
        = some (some ⟨"2026-11-04", [("eth0", ⟨"eth0", 1500, 2500, 1500, 2500⟩)]⟩) := by
  decide

/-- C6 (amended): whenever a fresh snapshot is synthesized (file absent,
corrupt or dated another day), every discovered interface gets totals 0 and
last values equal to the counters read when its read succeeds, and equal to 0
when its read fails. A seeded last value is 0 only if the source reported 0
for that counter or the read of the interface failed, and after a successful
seeding read the first successful tick adds only the wrapping difference
between its reading and the seed. -/
theorem C6_fresh_snapshot_seeds_read_or_zero (env : Env) (tm : TrafficMonitor)
    (hfresh : tm.disk = .absent ∨ tm.disk = .corrupt
      ∨ ∃ date, tm.disk.date? = some date ∧ date ≠ env.today) :
    ∃ tm' d, startDailyUsage env tm = some tm'
      ∧ tm'.dailyUsage = some d
      ∧ d.Date = env.today
      ∧ ∀ i ∈ tm.interfaces, ∃ s, mapGet d.Interfaces i = some s
          ∧ s.TotalRx = 0 ∧ s.TotalTx = 0
          ∧ (∀ rx tx, readInterfaceCounters env.counters i = some (rx, tx) →
              s.LastRx = rx ∧ s.LastTx = tx
              ∧ ∀ (cs : CounterSource) (rx' tx' : Nat),
                  readInterfaceCounters cs i = some (rx', tx') →
                  (updateInterfaceUsage cs i s).TotalRx = sub64 rx' rx
                  ∧ (updateInterfaceUsage cs i s).TotalTx = sub64 tx' tx)
          ∧ (readInterfaceCounters env.counters i = none → s.LastRx = 0 ∧ s.LastTx = 0)
          ∧ (s.LastRx = 0 → readCounter (env.counters.rx i) = some 0
              ∨ readInterfaceCounters env.counters i = none)
          ∧ (s.LastTx = 0 → readCounter (env.counters.tx i) = some 0
              ∨ readInterfaceCounters env.counters i = none) := by
  refine ⟨initDailyUsage env tm, ⟨env.today, seedAll env tm.interfaces []⟩,
    startDailyUsage_fresh env tm hfresh, initDailyUsage_dailyUsage env tm, rfl, ?_⟩
  · intro i hi
    refine ⟨seedEntry env i, mapGet_seedAll_mem env tm.interfaces [] i hi, ?_⟩
    cases hr : readInterfaceCounters env.counters i with
    | none =>
      rw [seedEntry_of_fail hr]
      refine ⟨rfl, rfl, ?_, fun _ => ⟨rfl, rfl⟩, fun _ => Or.inr rfl, fun _ => Or.inr rfl⟩
      intro rx tx h
      exact absurd h (by simp)
    | some r =>
      obtain ⟨rx, tx⟩ := r
      rw [seedEntry_of_read hr]
      have hparts : readCounter (env.counters.rx i) = some rx
          ∧ readCounter (env.counters.tx i) = some tx := by
        unfold readInterfaceCounters at hr
        cases h1 : readCounter (env.counters.rx i) with
        | none => simp [h1] at hr
        | some a =>
          cases h2 : readCounter (env.counters.tx i) with
          | none => simp [h1, h2] at hr
          | some b =>
            simp [h1, h2] at hr
            rw [hr.1, hr.2]
            exact ⟨rfl, rfl⟩
      refine ⟨rfl, rfl, ?_, ?_, ?_, ?_⟩
      · intro rx0 tx0 h
        have hpair : (rx, tx) = (rx0, tx0) := Option.some.inj h
        have hrx : rx = rx0 := congrArg Prod.fst hpair
        have htx : tx = tx0 := congrArg Prod.snd hpair
        subst hrx
        subst htx
        refine ⟨rfl, rfl, ?_⟩
        intro cs rx' tx' hread
        rw [updateInterfaceUsage_of_read _ hread]
        have h1 := sub64_lt rx' rx
        have h2 := sub64_lt tx' tx
        constructor
        · show add64 0 (sub64 rx' rx) = sub64 rx' rx
          unfold add64; omega
        · show add64 0 (sub64 tx' tx) = sub64 tx' tx
          unfold add64; omega
      · intro h
        exact absurd h (by simp)
      · intro h
        have h0 : rx = 0 := h
        left
        rw [hparts.1, h0]
      · intro h
        have h0 : tx = 0 := h
        left
        rw [hparts.2, h0]

/-- C6 (amended) on a monitor of `eth0` with no usage file. -/
theorem C6_witness :
    ∃ tm' d, startDailyUsage (envOk "2026-11-04" (csConst 1000 2000)) tmEth0 = some tm'
      ∧ tm'.dailyUsage = some d
      ∧ d.Date = "2026-11-04" :=
  (C6_fresh_snapshot_seeds_read_or_zero (envOk "2026-11-04" (csConst 1000 2000)) tmEth0
    (Or.inl rfl)).imp (fun _ h => h.imp (fun _ h' => ⟨h'.1, h'.2.1, h'.2.2.1⟩))

/-! ## C7 -/

theorem saveDailyUsage_some (env : Env) (tm : TrafficMonitor) (d : DailyUsage)
    (h : tm.dailyUsage = some d) :
    saveDailyUsage env tm = { tm with disk := diskAfterSave env tm.disk d } := by
  cases tm
  cases hfs : env.fs <;> simp_all [saveDailyUsage, diskAfterSave]

/-- At startup a file of today without an interfaces map makes
`loadDailyUsage` panic as soon as one interface is monitored, and `Start`
with it. -/
theorem loadDailyUsage_nil_map_panics (env : Env) (tm : TrafficMonitor)
    (hstart : tm.dailyUsage = none) (hdisk : tm.disk = .snapshotNilMap env.today)
    (hifaces : tm.interfaces ≠ []) :
    loadDailyUsage env tm = .panic ∧ startDailyUsage env tm = none := by
  have hpos : tm.interfaces.length > 0 := List.length_pos.mpr hifaces
  have hload : loadDailyUsage env tm = .panic := by
    simp only [loadDailyUsage, hdisk, hstart]
    rw [if_neg (not_not.mpr rfl), if_pos hpos]
  exact ⟨hload, by simp only [startDailyUsage, hload]⟩

/-- C7 (counterexample): at startup, with a file of today that holds `eth0`
alone and a counter source whose read of `wlan0` fails (its received counter
is readable and stands at 1000, its sent counter is not readable), the
missing `wlan0` is added with last values 0 and 0, not with a fresh read; and
with a file of today that has no interfaces map, `loadDailyUsage` panics
instead of adding `eth0`. -/
theorem C7_counterexample :
    (csRxOnly 1000).rx "wlan0" = some 1000
    ∧ readInterfaceCounters (csRxOnly 1000) "wlan0" = none
    ∧ loadDailyUsage (envOk "2026-11-04" (csRxOnly 1000))
        { interfaces := ["eth0", "wlan0"], dailyUsage := none, disk := .snapshot usageEth0 }
      = .ok
        { interfaces := ["eth0", "wlan0"],
          dailyUsage := some ⟨"2026-11-04",
            [("eth0", ⟨"eth0", 500, 500, 1500, 2500⟩), ("wlan0", ⟨"wlan0", 0, 0, 0, 0⟩)]⟩,
          disk := .snapshot ⟨"2026-11-04",
            [("eth0", ⟨"eth0", 500, 500, 1500, 2500⟩), ("wlan0", ⟨"wlan0", 0, 0, 0, 0⟩)]⟩ }
    ∧ loadDailyUsage (envOk "2026-11-04" (csConst 1000 2000))
        { interfaces := ["eth0"], dailyUsage := none, disk := .snapshotNilMap "2026-11-04" }
      = .panic := by
  decide

/-- C7 (amended): at startup, when the usage file decodes to a snapshot dated
today that has an interfaces map without null entry and lacks the discovered
interface `X`, `loadDailyUsage` succeeds with a snapshot of the same date
that holds `X` with totals 0 and last values equal to the counters just read
when that read succeeds and equal to 0 when it fails, and in which every
interface present in the file is stored unchanged; its keys are those of the
file and the discovered interfaces, and it is what the save that follows
writes. -/
theorem C7_loadDailyUsage_heals_missing_interface (env : Env) (tm : TrafficMonitor)
    (usage : DailyUsage) (X : String)
    (hstart : tm.dailyUsage = none) (hdisk : tm.disk = .snapshot usage)
    (htoday : usage.Date = env.today) (hX : X ∈ tm.interfaces)
    (habsent : mapGet usage.Interfaces X = none) :
    ∃ tm' d, loadDailyUsage env tm = .ok tm'
      ∧ tm'.interfaces = tm.interfaces
      ∧ tm'.dailyUsage = some d
      ∧ d.Date = usage.Date
      ∧ (∀ rx tx, readInterfaceCounters env.counters X = some (rx, tx) →
          mapGet d.Interfaces X = some ⟨X, 0, 0, rx, tx⟩)
      ∧ (readInterfaceCounters env.counters X = none →
          mapGet d.Interfaces X = some ⟨X, 0, 0, 0, 0⟩)
      ∧ (∀ k s, mapGet usage.Interfaces k = some s → mapGet d.Interfaces k = some s)
      ∧ (∀ k, k ∈ mapKeys d.Interfaces ↔ k ∈ mapKeys usage.Interfaces ∨ k ∈ tm.interfaces)
      ∧ tm'.disk = diskAfterSave env tm.disk d := by
  have hmissing : ∀ k, k ∈ tm.interfaces.filter
      (fun iface => (mapGet usage.Interfaces iface).isNone)
      ↔ k ∈ tm.interfaces ∧ mapGet usage.Interfaces k = none := by
    intro k
    simp [List.mem_filter]
  have hXm := (hmissing X).mpr ⟨hX, habsent⟩
  have hpos : (tm.interfaces.filter
      (fun iface => (mapGet usage.Interfaces iface).isNone)).length > 0 :=
    List.length_pos_of_mem hXm
  have hfold := foldl_initInterfaceUsageLocked env
    (tm.interfaces.filter (fun iface => (mapGet usage.Interfaces iface).isNone))
    { tm with dailyUsage := some usage } usage rfl
  have hload : loadDailyUsage env tm = .ok (saveDailyUsage env
      ((tm.interfaces.filter (fun iface => (mapGet usage.Interfaces iface).isNone)).foldl
        (initInterfaceUsageLocked env) { tm with dailyUsage := some usage })) := by
    simp only [loadDailyUsage, loadSameDay, hdisk, hstart]
    rw [if_neg (not_not.mpr htoday), if_pos hpos]
  rw [hfold, saveDailyUsage_some env _ _ rfl] at hload
  refine ⟨_, _, hload, rfl, rfl, rfl, ?_, ?_, ?_, ?_, rfl⟩
  · intro rx tx hread
    show mapGet (seedAll env _ usage.Interfaces) X = _
    rw [mapGet_seedAll_mem env _ _ X hXm, seedEntry_of_read hread]
  · intro hfail
    show mapGet (seedAll env _ usage.Interfaces) X = _
    rw [mapGet_seedAll_mem env _ _ X hXm, seedEntry_of_fail hfail]
  · intro k s hk
    show mapGet (seedAll env _ usage.Interfaces) k = _
    rw [mapGet_seedAll_not_mem env _ _ k, hk]
    intro hc
    have := ((hmissing k).mp hc).2
    rw [hk] at this
    exact absurd this (by simp)
  · intro k
    show k ∈ mapKeys (seedAll env _ usage.Interfaces) ↔ _
    rw [mem_mapKeys_seedAll, hmissing]
    constructor
    · rintro (⟨h1, _⟩ | h2)
      · exact Or.inr h1
      · exact Or.inl h2
    · rintro (h1 | h2)
      · exact Or.inr h1
      · by_cases hk : mapGet usage.Interfaces k = none
        · exact Or.inl ⟨h2, hk⟩
        · exact Or.inr ((mapGet_eq_none_iff _ _).not_left.mp hk)

/-- C7 (amended) on a monitor of `eth0` and `wlan0` whose file, dated today,
holds `eth0` alone: `wlan0` is seeded from the read `(1000, 2000)` and `eth0`
keeps its stored fields. -/
theorem C7_witness :
    ∃ tm' d, loadDailyUsage (envOk "2026-11-04" (csConst 1000 2000))
        { interfaces := ["eth0", "wlan0"], dailyUsage := none,
          disk := .snapshot usageEth0 } = .ok tm'
      ∧ tm'.dailyUsage = some d
      ∧ mapGet d.Interfaces "wlan0" = some ⟨"wlan0", 0, 0, 1000, 2000⟩
      ∧ mapGet d.Interfaces "eth0" = some ⟨"eth0", 500, 500, 1500, 2500⟩ :=
  (C7_loadDailyUsage_heals_missing_interface (envOk "2026-11-04" (csConst 1000 2000))
    { interfaces := ["eth0", "wlan0"], dailyUsage := none, disk := .snapshot usageEth0 }
    usageEth0 "wlan0" rfl rfl (by decide) (by decide) (by decide)).imp
    (fun _ h => h.imp (fun _ h' =>
      ⟨h'.1, h'.2.2.1, h'.2.2.2.2.1 1000 2000 (by decide),
        h'.2.2.2.2.2.2.1 "eth0" _ (by decide)⟩))

/-! ## C8 -/

/-- C8: on an initialized snapshot `ResetStats` sets both totals of every
interface to 0 and leaves the last values, the names, the key set, the date
and the list of monitored interfaces as they were; the document it hands to
the save is the snapshot after the reset, which is what the file holds when
the write succeeds. -/
theorem C8_ResetStats_zeroes_totals_only (env : Env) (tm : TrafficMonitor) (d : DailyUsage)
    (h : tm.dailyUsage = some d) :
    ∃ d', (ResetStats env tm).dailyUsage = some d'
      ∧ (ResetStats env tm).interfaces = tm.interfaces
      ∧ d'.Date = d.Date
      ∧ mapKeys d'.Interfaces = mapKeys d.Interfaces
      ∧ (∀ k s, mapGet d.Interfaces k = some s →
          ∃ s', mapGet d'.Interfaces k = some s'
            ∧ s'.TotalRx = 0 ∧ s'.TotalTx = 0
            ∧ s'.LastRx = s.LastRx ∧ s'.LastTx = s.LastTx ∧ s'.Interface = s.Interface)
      ∧ (∀ e ∈ d'.Interfaces, e.2.TotalRx = 0 ∧ e.2.TotalTx = 0)
      ∧ (ResetStats env tm).disk = diskAfterSave env tm.disk d'
      ∧ (env.fs = .ok → (ResetStats env tm).disk = .snapshot d') := by
  have hreset : ResetStats env tm = saveDailyUsage env { tm with dailyUsage := (some
      ⟨d.Date, d.Interfaces.map (fun e => (e.1, { e.2 with TotalRx := 0, TotalTx := 0 }))⟩) } := by
    simp only [ResetStats, h]
  rw [hreset, saveDailyUsage_some env _ _ rfl]
  refine ⟨_, rfl, rfl, rfl, ?_, ?_, ?_, rfl, ?_⟩
  · exact mapKeys_map (fun _ v => { v with TotalRx := 0, TotalTx := 0 }) d.Interfaces
  · intro k s hk
    refine ⟨{ s with TotalRx := 0, TotalTx := 0 }, ?_, rfl, rfl, rfl, rfl, rfl⟩
    have hm := mapGet_map (fun _ v => { v with TotalRx := 0, TotalTx := 0 }) d.Interfaces k
    rw [hk] at hm
    exact hm
  · intro e he
    obtain ⟨e0, _, rfl⟩ := List.mem_map.mp he
    exact ⟨rfl, rfl⟩
  · intro hfs
    simp [diskAfterSave, hfs]

/-- C8 on the snapshot of `eth0` with totals 500: after the reset the totals
are 0, the last values still `1500` and `2500`, and the file holds the reset
snapshot. -/
theorem C8_witness :
    ∃ d', (ResetStats (envOk "2026-11-04" csFail)
        { interfaces := ["eth0"], dailyUsage := some usageEth0, disk := .absent }).dailyUsage
        = some d'
      ∧ d' = ⟨"2026-11-04", [("eth0", ⟨"eth0", 0, 0, 1500, 2500⟩)]⟩
      ∧ (ResetStats (envOk "2026-11-04" csFail)
        { interfaces := ["eth0"], dailyUsage := some usageEth0, disk := .absent }).disk
        = .snapshot d' :=
  (C8_ResetStats_zeroes_totals_only (envOk "2026-11-04" csFail)
    { interfaces := ["eth0"], dailyUsage := some usageEth0, disk := .absent }
    usageEth0 rfl).imp
    (fun _ h => ⟨h.1, Option.some.inj (h.1.symm.trans (by decide)), h.2.2.2.2.2.2.2 rfl⟩)

/-! ## C9 -/

/-- C9: in a tick over an initialized snapshot, whatever reads fail, an
interface whose read fails keeps its entry unchanged, an interface whose read
succeeds gets its totals increased by the wrapping deltas and its last values
replaced by the read, the key set and the date stay, and the tick goes on to
save the updated snapshot, which is what the file holds when the write
succeeds. -/
theorem C9_updateDailyUsage_skips_failed_reads (env : Env) (tm : TrafficMonitor)
    (d : DailyUsage) (h : tm.dailyUsage = some d) :
    ∃ d', (updateDailyUsage env tm).dailyUsage = some d'
      ∧ (updateDailyUsage env tm).interfaces = tm.interfaces
      ∧ d'.Date = d.Date
      ∧ mapKeys d'.Interfaces = mapKeys d.Interfaces
      ∧ (∀ k s, mapGet d.Interfaces k = some s →
          readInterfaceCounters env.counters k = none →
          mapGet d'.Interfaces k = some s)
      ∧ (∀ k s rx tx, mapGet d.Interfaces k = some s →
          readInterfaceCounters env.counters k = some (rx, tx) →
          mapGet d'.Interfaces k = some
            { Interface := s.Interface
              TotalRx := (s.TotalRx + sub64 rx s.LastRx) % 2 ^ 64
              TotalTx := (s.TotalTx + sub64 tx s.LastTx) % 2 ^ 64
              LastRx := rx
              LastTx := tx })
      ∧ (updateDailyUsage env tm).disk = diskAfterSave env tm.disk d'
      ∧ (env.fs = .ok → (updateDailyUsage env tm).disk = .snapshot d') := by
  have hupd : updateDailyUsage env tm = saveDailyUsage env { tm with dailyUsage := (some
      ⟨d.Date, d.Interfaces.map
        (fun e => (e.1, updateInterfaceUsage env.counters e.1 e.2))⟩) } := by
    simp only [updateDailyUsage, h]
  rw [hupd, saveDailyUsage_some env _ _ rfl]
  refine ⟨_, rfl, rfl, rfl, ?_, ?_, ?_, rfl, ?_⟩
  · exact mapKeys_map (fun k v => updateInterfaceUsage env.counters k v) d.Interfaces
  · intro k s hk hfail
    have hm := mapGet_map (fun k v => updateInterfaceUsage env.counters k v) d.Interfaces k
    rw [hk] at hm
    rw [show mapGet _ k = _ from hm, Option.map_some', updateInterfaceUsage_of_fail s hfail]
  · intro k s rx tx hk hread
    have hm := mapGet_map (fun k v => updateInterfaceUsage env.counters k v) d.Interfaces k
    rw [hk] at hm
    rw [show mapGet _ k = _ from hm, Option.map_some', updateInterfaceUsage_of_read s hread]
    rfl
  · intro hfs
    simp [diskAfterSave, hfs]

/-- C9 on a snapshot of `eth0` and `wlan0` in a tick where the read of `eth0`
succeeds with `(1600, 2600)` and the read of `wlan0` fails. -/
theorem C9_witness :
    ∃ d', (updateDailyUsage (envOk "2026-11-04"
          { rx := fun i => if i = "eth0" then some 1600 else none,
            tx := fun i => if i = "eth0" then some 2600 else none })
        { interfaces := ["eth0", "wlan0"],
          dailyUsage := some ⟨"2026-11-04",
            [("wlan0", ⟨"wlan0", 7, 8, 70, 80⟩), ("eth0", ⟨"eth0", 500, 500, 1500, 2500⟩)]⟩,
          disk := .absent }).dailyUsage = some d'
      ∧ d' = ⟨"2026-11-04",
            [("wlan0", ⟨"wlan0", 7, 8, 70, 80⟩), ("eth0", ⟨"eth0", 600, 600, 1600, 2600⟩)]⟩ :=
  (C9_updateDailyUsage_skips_failed_reads (envOk "2026-11-04"
      { rx := fun i => if i = "eth0" then some 1600 else none,
        tx := fun i => if i = "eth0" then some 2600 else none })
    { interfaces := ["eth0", "wlan0"],
      dailyUsage := some ⟨"2026-11-04",
        [("wlan0", ⟨"wlan0", 7, 8, 70, 80⟩), ("eth0", ⟨"eth0", 500, 500, 1500, 2500⟩)]⟩,
      disk := .absent } _ rfl).imp
    (fun _ h => ⟨h.1, Option.some.inj (h.1.symm.trans (by decide))⟩)

/-! ## C10 -/

/-- C10 (counterexample): `eth0` is seeded at `(1000, 0)` and a first tick
reads `(500, 0)`, which leaves total `2^64 - 500` and last value `500`. The
next tick reads `(1500, 0)`, no counter below its last value, and the received
total drops to `500`. -/
theorem C10_counterexample :
    (startDailyUsage (envOk "2026-11-04" (csConst 1000 0)) tmEth0).map
        (fun tm => (updateDailyUsage (envOk "2026-11-04" (csConst 500 0)) tm).dailyUsage)
      = some (some ⟨"2026-11-04", [("eth0", ⟨"eth0", 2 ^ 64 - 500, 0, 500, 0⟩)]⟩)
    ∧ readInterfaceCounters (csConst 1500 0) "eth0" = some (1500, 0)
    ∧ (500 : Nat) ≤ 1500 ∧ (0 : Nat) ≤ 0
    ∧ updateInterfaceUsage (csConst 1500 0) "eth0" ⟨"eth0", 2 ^ 64 - 500, 0, 500, 0⟩
      = ⟨"eth0", 500, 0, 1500, 0⟩
    ∧ ¬ ((⟨"eth0", 2 ^ 64 - 500, 0, 500, 0⟩ : InterfaceUsage).TotalRx
        ≤ (updateInterfaceUsage (csConst 1500 0) "eth0"
            ⟨"eth0", 2 ^ 64 - 500, 0, 500, 0⟩).TotalRx) := by
  decide

/-- C10 (amended): on a successful read with no counter below its last value,
a total does not decrease exactly when adding the delta to it stays below
`2^64`, and it then grows by the delta `raw - last`; otherwise the total wraps
around and decreases. -/
theorem C10_totals_nondecreasing_iff_no_overflow (cs : CounterSource) (iface : String)
    (stats : InterfaceUsage) (rawRx rawTx : Nat)
    (hread : readInterfaceCounters cs iface = some (rawRx, rawTx))
    (hrx : stats.LastRx ≤ rawRx) (htx : stats.LastTx ≤ rawTx) :
    (stats.TotalRx ≤ (updateInterfaceUsage cs iface stats).TotalRx
        ↔ stats.TotalRx + (rawRx - stats.LastRx) < 2 ^ 64)
      ∧ (stats.TotalRx + (rawRx - stats.LastRx) < 2 ^ 64 →
          (updateInterfaceUsage cs iface stats).TotalRx
            = stats.TotalRx + (rawRx - stats.LastRx))
      ∧ (stats.TotalTx ≤ (updateInterfaceUsage cs iface stats).TotalTx
        ↔ stats.TotalTx + (rawTx - stats.LastTx) < 2 ^ 64)
      ∧ (stats.TotalTx + (rawTx - stats.LastTx) < 2 ^ 64 →
          (updateInterfaceUsage cs iface stats).TotalTx
            = stats.TotalTx + (rawTx - stats.LastTx)) := by
  obtain ⟨hr, ht⟩ := readInterfaceCounters_lt hread
  rw [updateInterfaceUsage_of_read stats hread]
  have h1 : sub64 rawRx stats.LastRx = rawRx - stats.LastRx := sub64_of_le hrx hr
  have h2 : sub64 rawTx stats.LastTx = rawTx - stats.LastTx := sub64_of_le htx ht
  simp only [h1, h2, add64]
  refine ⟨?_, ?_, ?_, ?_⟩ <;> omega

/-- C10 (amended) at the scenario of C1: totals 0, last values `(1000, 2000)`,
read `(1500, 2500)`. -/
theorem C10_witness :
    (⟨"eth0", 0, 0, 1000, 2000⟩ : InterfaceUsage).TotalRx
      ≤ (updateInterfaceUsage (csConst 1500 2500) "eth0" ⟨"eth0", 0, 0, 1000, 2000⟩).TotalRx :=
  (C10_totals_nondecreasing_iff_no_overflow (csConst 1500 2500) "eth0"
    ⟨"eth0", 0, 0, 1000, 2000⟩ 1500 2500 rfl (by decide) (by decide)).1.mpr (by decide)

/-! ## Facts about sorting and the report -/

theorem sortStrings_perm (l : List String) : (sortStrings l).Perm l :=
  List.perm_insertionSort _ l

theorem sortStrings_sorted (l : List String) :
    (sortStrings l).Pairwise (fun a b => a ≤ b) := by
  haveI : IsTotal String (fun a b => a.toList ≤ b.toList) :=
    ⟨fun a b => le_total a.toList b.toList⟩
  haveI : IsTrans String (fun a b => a.toList ≤ b.toList) :=
    ⟨fun _ _ _ h1 h2 => le_trans h1 h2⟩
  have h : List.Sorted (fun a b : String => a.toList ≤ b.toList) (sortStrings l) :=
    List.sorted_insertionSort _ l
  exact List.Pairwise.imp (fun hab => String.le_iff_toList_le.mpr hab) h

theorem sortStrings_strict (l : List String) (hl : l.Nodup) :
    (sortStrings l).Pairwise (fun a b => a < b) :=
  List.Sorted.lt_of_le (sortStrings_sorted l) ((sortStrings_perm l).nodup_iff.mpr hl)

theorem mem_sortStrings (l : List String) (x : String) : x ∈ sortStrings l ↔ x ∈ l :=
  (sortStrings_perm l).mem_iff

/-- The loop of `sendReport` over the names `l` in closed form. -/
theorem addInterfaceReports_eq (usage : DailyUsage) :
    ∀ (l : List String) (reports : List InterfaceUsageReport) (a b : Nat),
      addInterfaceReports usage l (reports, a, b)
        = (reports ++ l.filterMap (fun i => (mapGet usage.Interfaces i).map
              (fun st => (⟨i, st.TotalRx, st.TotalTx⟩ : InterfaceUsageReport))),
           (l.filterMap (mapGet usage.Interfaces)).foldl (fun acc st => add64 acc st.TotalRx) a,
           (l.filterMap (mapGet usage.Interfaces)).foldl (fun acc st => add64 acc st.TotalTx) b) := by
  intro l
  induction l with
  | nil => intro reports a b; simp [addInterfaceReports]
  | cons i rest ih =>
    intro reports a b
    cases hg : mapGet usage.Interfaces i with
    | none => simp [addInterfaceReports, hg, ih]
    | some st => simp [addInterfaceReports, hg, ih]

theorem foldl_add64 (f : InterfaceUsage → Nat) :
    ∀ (xs : List InterfaceUsage) (a : Nat), a < 2 ^ 64 →
      xs.foldl (fun acc st => add64 acc (f st)) a = (a + (xs.map f).sum) % 2 ^ 64 := by
  intro xs
  induction xs with
  | nil => intro a ha; simp; omega
  | cons x rest ih =>
    intro a ha
    rw [List.foldl_cons, ih _ (add64_lt a (f x))]
    simp only [List.map_cons, List.sum_cons, add64]
    omega

theorem mapGet_of_mem (m : IfaceMap) (hm : (mapKeys m).Nodup) (k : String)
    (v : InterfaceUsage) (hmem : (k, v) ∈ m) : mapGet m k = some v := by
  induction m with
  | nil => exact absurd hmem (List.not_mem_nil _)
  | cons e rest ih =>
    obtain ⟨k0, v0⟩ := e
    have hm' : k0 ∉ mapKeys rest ∧ (mapKeys rest).Nodup := by
      simpa [mapKeys] using hm
    cases List.mem_cons.mp hmem with
    | inl h =>
      have h1 : k = k0 := congrArg Prod.fst h
      have h2 : v = v0 := congrArg Prod.snd h
      simp [mapGet, h1, h2]
    | inr h =>
      have hk : k ∈ mapKeys rest := List.mem_map.mpr ⟨(k, v), h, rfl⟩
      have hne : k0 ≠ k := fun hc => hm'.1 (hc ▸ hk)
      simp [mapGet, hne, ih hm'.2 h]

theorem mem_of_mapGet (m : IfaceMap) (k : String) (v : InterfaceUsage)
    (h : mapGet m k = some v) : (k, v) ∈ m := by
  induction m with
  | nil => simp [mapGet] at h
  | cons e rest ih =>
    obtain ⟨k0, v0⟩ := e
    by_cases hk : k0 = k
    · simp [mapGet, hk] at h
      simp [hk, h]
    · simp [mapGet, hk] at h
      exact List.mem_cons_of_mem _ (ih h)

/-- Reading a map at each of its keys returns its values, keys being
distinct. -/
theorem filterMap_mapGet_keys (m : IfaceMap) (hm : (mapKeys m).Nodup) :
    (mapKeys m).filterMap (mapGet m) = m.map Prod.snd := by
  induction m with
  | nil => rfl
  | cons e rest ih =>
    obtain ⟨k0, v0⟩ := e
    have hm' : k0 ∉ mapKeys rest ∧ (mapKeys rest).Nodup := by
      simpa [mapKeys] using hm
    have hrest : (mapKeys rest).filterMap (mapGet ((k0, v0) :: rest))
        = (mapKeys rest).filterMap (mapGet rest) := by
      apply List.filterMap_congr
      intro x hx
      have hne : k0 ≠ x := fun hc => hm'.1 (hc ▸ hx)
      simp [mapGet, hne]
    have hhead : mapGet ((k0, v0) :: rest) k0 = some v0 := by simp [mapGet]
    show List.filterMap (mapGet ((k0, v0) :: rest)) (k0 :: mapKeys rest) = v0 :: rest.map Prod.snd
    rw [List.filterMap_cons, hhead, hrest, ih hm'.2]

/-- Every request of `sendLoop` carries the body the loop was given. -/
theorem sendLoop_bodies (cfg : Config) (srv : Server) (body : DailyUsageReport) :
    ∀ (fuel : Nat) (attempt : Int) (lastErr : Option ReportError) (trace : List Event),
      (∀ a b, Event.request a b ∈ trace → b = body) →
      ∀ a b, Event.request a b ∈ (sendLoop cfg srv body fuel attempt lastErr trace).1 →
        b = body := by
  intro fuel
  induction fuel with
  | zero => intro attempt lastErr trace h a b hmem; exact h a b hmem
  | succ fuel ih =>
    intro attempt lastErr trace h a b hmem
    unfold sendLoop at hmem
    by_cases hle : attempt ≤ cfg.RetryAttempts
    · rw [if_pos hle] at hmem
      cases hreq : srv.newRequestError with
      | some err =>
        simp only [hreq] at hmem
        exact h a b hmem
      | none =>
        simp only [hreq] at hmem
        cases hrt : srv.roundTrip attempt with
        | transportError err =>
          simp only [hrt] at hmem
          by_cases hlt : attempt < cfg.RetryAttempts
          · rw [if_pos hlt] at hmem
            refine ih _ _ _ ?_ a b hmem
            intro a' b' hm
            simp only [List.mem_append, List.mem_cons, List.mem_singleton] at hm
            rcases hm with hm | hm | hm
            · exact h a' b' hm
            · exact (Event.request.inj hm).2
            · exact absurd hm (by simp)
          · rw [if_neg hlt] at hmem
            simp only [List.mem_append, List.mem_singleton] at hmem
            rcases hmem with hm | hm
            · exact h a b hm
            · exact (Event.request.inj hm).2
        | response status decodable =>
          simp only [hrt] at hmem
          simp only [List.mem_append, List.mem_singleton] at hmem
          rcases hmem with hm | hm
          · exact h a b hm
          · exact (Event.request.inj hm).2
    · rw [if_neg hle] at hmem
      exact h a b hmem

/-- The report of `sendReport` in closed form. -/
theorem buildReport_eq (cfg : Config) (usage : DailyUsage) :
    buildReport cfg usage
      = { DeviceID := cfg.DeviceID
          Date := usage.Date
          Interfaces := (sortStrings (mapKeys usage.Interfaces)).filterMap
            (fun i => (mapGet usage.Interfaces i).map
              (fun st => (⟨i, st.TotalRx, st.TotalTx⟩ : InterfaceUsageReport)))
          TotalRx := ((sortStrings (mapKeys usage.Interfaces)).filterMap
            (mapGet usage.Interfaces)).foldl (fun acc st => add64 acc st.TotalRx) 0
          TotalTx := ((sortStrings (mapKeys usage.Interfaces)).filterMap
            (mapGet usage.Interfaces)).foldl (fun acc st => add64 acc st.TotalTx) 0 } := by
  simp only [buildReport, addInterfaceReports_eq, List.nil_append]

theorem filterMap_report_names (m : IfaceMap) :
    ∀ (l : List String), (∀ i ∈ l, i ∈ mapKeys m) →
      (l.filterMap (fun i => (mapGet m i).map
        (fun st => (⟨i, st.TotalRx, st.TotalTx⟩ : InterfaceUsageReport)))).map
        (fun e => e.Interface) = l := by
  intro l
  induction l with
  | nil => intro _; rfl
  | cons i rest ih =>
    intro h
    have hi : i ∈ mapKeys m := h i (List.mem_cons_self _ _)
    have hrest := ih (fun x hx => h x (List.mem_cons_of_mem _ hx))
    cases hg : mapGet m i with
    | none => exact absurd hi ((mapGet_eq_none_iff m i).mp hg)
    | some st =>
      rw [List.filterMap_cons]
      simp only [hg, Option.map_some', List.map_cons]
      rw [hrest]

/-- The sum of a field over the values read at the sorted keys is the sum
over the entries of the map. -/
theorem sum_sorted_keys (m : IfaceMap) (hm : (mapKeys m).Nodup) (f : InterfaceUsage → Nat) :
    (((sortStrings (mapKeys m)).filterMap (mapGet m)).map f).sum
      = (m.map (fun e => f e.2)).sum := by
  have hperm : ((sortStrings (mapKeys m)).filterMap (mapGet m)).Perm
      ((mapKeys m).filterMap (mapGet m)) :=
    (sortStrings_perm (mapKeys m)).filterMap _
  rw [(hperm.map f).sum_eq, filterMap_mapGet_keys m hm, List.map_map]
  rfl

/-! ## C11 -/

/-- C11: for a snapshot (a map, so with distinct keys) the report of
`sendReport` lists the snapshot's interface names, each once, in strictly
ascending lexicographic order; every entry carries the `TotalRx` and `TotalTx`
of the interface it names and every interface has its entry; the date is the
snapshot's; and every request `sendReport` sends carries this report. For
`eth0` with 1048576 bytes received and `wlan0` with 2097152 bytes sent the
entries are `eth0` then `wlan0`, with 1048576 (1 MiB) and 2097152 (2 MiB). -/
theorem C11_buildReport_entries_sorted_by_name (cfg : Config) (usage : DailyUsage)
    (hkeys : (mapKeys usage.Interfaces).Nodup) :
    ((buildReport cfg usage).Interfaces.map (fun e => e.Interface)).Perm
        (mapKeys usage.Interfaces)
      ∧ (buildReport cfg usage).Interfaces.length = usage.Interfaces.length
      ∧ ((buildReport cfg usage).Interfaces.map (fun e => e.Interface)).Pairwise
          (fun a b => a < b)
      ∧ (∀ e ∈ (buildReport cfg usage).Interfaces, ∃ st,
          mapGet usage.Interfaces e.Interface = some st
          ∧ e.TotalRx = st.TotalRx ∧ e.TotalTx = st.TotalTx)
      ∧ (∀ k st, mapGet usage.Interfaces k = some st →
          (⟨k, st.TotalRx, st.TotalTx⟩ : InterfaceUsageReport)
            ∈ (buildReport cfg usage).Interfaces)
      ∧ (buildReport cfg usage).Date = usage.Date
      ∧ (∀ (srv : Server) (a : Int) (body : DailyUsageReport),
          Event.request a body ∈ (sendReport cfg srv (some usage)).1 →
          body = buildReport cfg usage)
      ∧ (buildReport cfg usageTwo).Interfaces
          = [⟨"eth0", 1048576, 0⟩, ⟨"wlan0", 0, 2097152⟩]
      ∧ (1048576 : Nat) = 1 * (1024 * 1024) ∧ (2097152 : Nat) = 2 * (1024 * 1024) := by
  have hnames : (buildReport cfg usage).Interfaces.map (fun e => e.Interface)
      = sortStrings (mapKeys usage.Interfaces) := by
    rw [buildReport_eq]
    exact filterMap_report_names usage.Interfaces _
      (fun i hi => (mem_sortStrings _ i).mp hi)
  have hlen : (buildReport cfg usage).Interfaces.length = usage.Interfaces.length := by
    have h1 := congrArg List.length hnames
    rw [List.length_map, (sortStrings_perm _).length_eq] at h1
    rw [h1]
    simp [mapKeys]
  refine ⟨?_, hlen, ?_, ?_, ?_, ?_, ?_, rfl, by decide, by decide⟩
  · rw [hnames]
    exact sortStrings_perm _
  · rw [hnames]
    exact sortStrings_strict _ hkeys
  · intro e he
    rw [buildReport_eq] at he
    obtain ⟨i, _, hi⟩ := List.mem_filterMap.mp he
    cases hg : mapGet usage.Interfaces i with
    | none => simp [hg] at hi
    | some st =>
      simp only [hg, Option.map_some', Option.some.injEq] at hi
      subst hi
      exact ⟨st, hg, rfl, rfl⟩
  · intro k st hk
    rw [buildReport_eq]
    refine List.mem_filterMap.mpr ⟨k, ?_, by simp [hk]⟩
    rw [mem_sortStrings]
    by_contra hc
    rw [(mapGet_eq_none_iff _ _).mpr hc] at hk
    exact absurd hk (by simp)
  · rw [buildReport_eq]
  · intro srv a body hmem
    exact sendLoop_bodies cfg srv (buildReport cfg usage) _ 1 none []
      (fun _ _ h => absurd h (List.not_mem_nil _)) a body hmem

/-- C11 on the snapshot of scenario 3. -/
theorem C11_witness :
    ((buildReport ⟨"dev", 3, 5⟩ usageTwo).Interfaces.map (fun e => e.Interface)).Pairwise
      (fun a b => a < b) :=
  (C11_buildReport_entries_sorted_by_name ⟨"dev", 3, 5⟩ usageTwo (by decide)).2.2.1

/-! ## C12 -/

/-- C12 (counterexample): `eth0` seeded at 1000 then read at 500 holds the
total `2^64 - 500`, `wlan0` seeded at 0 then read at 1000 holds 1000. The
exact sum of the received totals is `2^64 + 500`, the combined total of the
report is 500, smaller than the total of `eth0`. -/
theorem C12_counterexample :
    (startDailyUsage (envOk "2026-11-04" (csPer (1000, 0) (0, 0))) tmTwo).map
        (fun tm => (updateDailyUsage (envOk "2026-11-04" (csPer (500, 0) (1000, 0)))
          tm).dailyUsage)
      = some (some ⟨"2026-11-04", [("eth0", ⟨"eth0", 2 ^ 64 - 500, 0, 500, 0⟩),
                                   ("wlan0", ⟨"wlan0", 1000, 0, 1000, 0⟩)]⟩)
    ∧ ([("eth0", (⟨"eth0", 2 ^ 64 - 500, 0, 500, 0⟩ : InterfaceUsage)),
        ("wlan0", ⟨"wlan0", 1000, 0, 1000, 0⟩)].map (fun e => e.2.TotalRx)).sum
      = 2 ^ 64 + 500
    ∧ (buildReport ⟨"dev", 3, 5⟩
        ⟨"2026-11-04", [("eth0", ⟨"eth0", 2 ^ 64 - 500, 0, 500, 0⟩),
                        ("wlan0", ⟨"wlan0", 1000, 0, 1000, 0⟩)]⟩).TotalRx = 500
    ∧ ¬ (2 ^ 64 - 500 ≤ (buildReport ⟨"dev", 3, 5⟩
        ⟨"2026-11-04", [("eth0", ⟨"eth0", 2 ^ 64 - 500, 0, 500, 0⟩),
                        ("wlan0", ⟨"wlan0", 1000, 0, 1000, 0⟩)]⟩).TotalRx) := by
  decide

/-- C12 (amended): for a snapshot (a map, so with distinct keys) the combined
byte totals of the report are the sums of `TotalRx` and of `TotalTx` over all
interfaces reduced modulo `2^64`; when such a sum is below `2^64` the combined
total is the exact sum and is at least the total of every interface. -/
theorem C12_combined_totals_are_sums_mod_two_pow_64 (cfg : Config) (usage : DailyUsage)
    (hkeys : (mapKeys usage.Interfaces).Nodup) :
    (buildReport cfg usage).TotalRx
        = (usage.Interfaces.map (fun e => e.2.TotalRx)).sum % 2 ^ 64
      ∧ (buildReport cfg usage).TotalTx
        = (usage.Interfaces.map (fun e => e.2.TotalTx)).sum % 2 ^ 64
      ∧ ((usage.Interfaces.map (fun e => e.2.TotalRx)).sum < 2 ^ 64 →
          (buildReport cfg usage).TotalRx = (usage.Interfaces.map (fun e => e.2.TotalRx)).sum
          ∧ ∀ e ∈ usage.Interfaces, e.2.TotalRx ≤ (buildReport cfg usage).TotalRx)
      ∧ ((usage.Interfaces.map (fun e => e.2.TotalTx)).sum < 2 ^ 64 →
          (buildReport cfg usage).TotalTx = (usage.Interfaces.map (fun e => e.2.TotalTx)).sum
          ∧ ∀ e ∈ usage.Interfaces, e.2.TotalTx ≤ (buildReport cfg usage).TotalTx) := by
  have hrx : (buildReport cfg usage).TotalRx
      = (usage.Interfaces.map (fun e => e.2.TotalRx)).sum % 2 ^ 64 := by
    rw [buildReport_eq]
    show List.foldl (fun acc (st : InterfaceUsage) => add64 acc st.TotalRx) 0 _ = _
    rw [foldl_add64 (fun st => st.TotalRx) _ 0 (by omega),
      sum_sorted_keys usage.Interfaces hkeys (fun st => st.TotalRx), Nat.zero_add]
  have htx : (buildReport cfg usage).TotalTx
      = (usage.Interfaces.map (fun e => e.2.TotalTx)).sum % 2 ^ 64 := by
    rw [buildReport_eq]
    show List.foldl (fun acc (st : InterfaceUsage) => add64 acc st.TotalTx) 0 _ = _
    rw [foldl_add64 (fun st => st.TotalTx) _ 0 (by omega),
      sum_sorted_keys usage.Interfaces hkeys (fun st => st.TotalTx), Nat.zero_add]
  refine ⟨hrx, htx, ?_, ?_⟩
  · intro hlt
    have heq := hrx
    rw [Nat.mod_eq_of_lt hlt] at heq
    refine ⟨heq, fun e he => ?_⟩
    rw [heq]
    exact List.le_sum_of_mem (List.mem_map.mpr ⟨e, he, rfl⟩)
  · intro hlt
    have heq := htx
    rw [Nat.mod_eq_of_lt hlt] at heq
    refine ⟨heq, fun e he => ?_⟩
    rw [heq]
    exact List.le_sum_of_mem (List.mem_map.mpr ⟨e, he, rfl⟩)

/-- C12 (amended) on the snapshot of scenario 3: the combined totals are
1048576 and 2097152. -/
theorem C12_witness :
    (buildReport ⟨"dev", 3, 5⟩ usageTwo).TotalRx = 1048576
      ∧ (buildReport ⟨"dev", 3, 5⟩ usageTwo).TotalTx = 2097152 :=
  ⟨(C12_combined_totals_are_sums_mod_two_pow_64 ⟨"dev", 3, 5⟩ usageTwo (by decide)).1.trans
      (by decide),
   (C12_combined_totals_are_sums_mod_two_pow_64 ⟨"dev", 3, 5⟩ usageTwo (by decide)).2.1.trans
      (by decide)⟩

/-! ## C13 -/

theorem mem_activeInterfaces (sys : System) (devices : List Device) (x : String) :
    x ∈ activeInterfaces sys devices
      ↔ ∃ dev ∈ devices, dev.Name = x ∧ dev.Addresses ≠ []
          ∧ sys.hasInterfaceStats x = true := by
  simp only [activeInterfaces, List.mem_map, List.mem_filter, Bool.and_eq_true,
    decide_eq_true_eq, List.length_pos]
  constructor
  · rintro ⟨dev, ⟨hd, ha, hs⟩, rfl⟩
    exact ⟨dev, hd, rfl, ha, hs⟩
  · rintro ⟨dev, hd, rfl, ha, hs⟩
    exact ⟨dev, ⟨hd, ha, hs⟩, rfl⟩

theorem discoverInterfaces_any (sys : System) (devices : List Device)
    (henum : sys.devices = some devices) :
    discoverInterfaces sys "any"
      = if (activeInterfaces sys devices).length = 0 then .error .noSuitable
        else .ok (sortStrings (activeInterfaces sys devices)) := by
  simp [discoverInterfaces, henum]

theorem discoverInterfaces_named (sys : System) (devices : List Device) (name : String)
    (henum : sys.devices = some devices) (hname : name ≠ "any") :
    discoverInterfaces sys name
      = if sys.hasInterfaceStats name = true then .ok [name]
        else .error (.notFound name) := by
  by_cases hs : sys.hasInterfaceStats name = true
  · simp [discoverInterfaces, henum, hname, hs, sortStrings]
  · simp [discoverInterfaces, henum, hname, hs]

/-- C13 (counterexample): an enumeration that lists `eth0` twice, each time
with an address and statistics files, makes wildcard discovery return the
name `eth0` twice; and when the enumeration itself fails, discovery of the
specific interface `eth0` fails although `eth0` has its statistics files. -/
theorem C13_counterexample :
    discoverInterfaces (sysAll [⟨"eth0", ["192.168.1.5"]⟩, ⟨"eth0", ["fe80::1"]⟩]) "any"
      = .ok ["eth0", "eth0"]
    ∧ discoverInterfaces { devices := none, hasInterfaceStats := fun _ => true } "eth0"
      = .error .findDevices :=
  ⟨rfl, rfl⟩

theorem discoverInterfaces_enumeration_failed (sys : System) (configInterface : String)
    (henum : sys.devices = none) :
    discoverInterfaces sys configInterface = .error .findDevices := by
  simp only [discoverInterfaces, henum]

/-- C13 (amended): when the enumeration of devices fails, discovery fails in
both modes. When it succeeds, wildcard discovery returns the names of the
devices that have an address and statistics files, each as often as the
enumeration lists it, in ascending lexicographic order (strictly ascending
when the enumeration lists no name twice), and fails exactly when no device
qualifies; discovery of a specific name returns that name alone when it has
statistics files and fails otherwise. -/
theorem C13_discoverInterfaces_sorted_active (sys : System) (name : String) :
    (sys.devices = none →
      ∀ configInterface, discoverInterfaces sys configInterface = .error .findDevices)
    ∧ ∀ devices, sys.devices = some devices →
      (activeInterfaces sys devices ≠ [] →
        ∃ l, discoverInterfaces sys "any" = .ok l
          ∧ l.Perm (activeInterfaces sys devices)
          ∧ l.Pairwise (fun a b => a ≤ b)
          ∧ (∀ x, x ∈ l ↔ ∃ dev ∈ devices, dev.Name = x ∧ dev.Addresses ≠ []
              ∧ sys.hasInterfaceStats x = true)
          ∧ ((devices.map (fun dev => dev.Name)).Nodup → l.Pairwise (fun a b => a < b)))
      ∧ (activeInterfaces sys devices = [] →
          discoverInterfaces sys "any" = .error .noSuitable)
      ∧ ((∃ e, discoverInterfaces sys "any" = .error e)
          ↔ ¬ ∃ dev ∈ devices, dev.Addresses ≠ [] ∧ sys.hasInterfaceStats dev.Name = true)
      ∧ (name ≠ "any" → sys.hasInterfaceStats name = true →
          discoverInterfaces sys name = .ok [name])
      ∧ (name ≠ "any" → sys.hasInterfaceStats name = false →
          discoverInterfaces sys name = .error (.notFound name)) := by
  refine ⟨fun henum configInterface =>
    discoverInterfaces_enumeration_failed sys configInterface henum, ?_⟩
  intro devices henum
  have hany := discoverInterfaces_any sys devices henum
  refine ⟨?_, ?_, ?_, ?_, ?_⟩
  · intro hne
    have hlen : ¬ (activeInterfaces sys devices).length = 0 := by
      rw [List.length_eq_zero]
      exact hne
    rw [if_neg hlen] at hany
    refine ⟨_, hany, sortStrings_perm _, sortStrings_sorted _, ?_, ?_⟩
    · intro x
      rw [mem_sortStrings, mem_activeInterfaces]
    · intro hnd
      apply sortStrings_strict
      exact List.Nodup.sublist ((List.filter_sublist _).map _) hnd
  · intro hnil
    rw [hany, hnil]
    rfl
  · constructor
    · rintro ⟨e, he⟩ ⟨dev, hd, ha, hs⟩
      have hmem : dev.Name ∈ activeInterfaces sys devices :=
        (mem_activeInterfaces sys devices dev.Name).mpr ⟨dev, hd, rfl, ha, hs⟩
      have hlen : ¬ (activeInterfaces sys devices).length = 0 := by
        rw [List.length_eq_zero]
        exact List.ne_nil_of_mem hmem
      rw [hany, if_neg hlen] at he
      exact absurd he (by simp)
    · intro hnone
      have hnil : activeInterfaces sys devices = [] := by
        apply List.eq_nil_iff_forall_not_mem.mpr
        intro x hx
        obtain ⟨dev, hd, hn, ha, hs⟩ := (mem_activeInterfaces sys devices x).mp hx
        exact hnone ⟨dev, hd, ha, hn ▸ hs⟩
      exact ⟨.noSuitable, by rw [hany, hnil]; rfl⟩
  · intro hname hs
    rw [discoverInterfaces_named sys devices name henum hname, if_pos hs]
  · intro hname hs
    rw [discoverInterfaces_named sys devices name henum hname, if_neg (by simp [hs])]

/-- C13 (amended) on an enumeration of `wlan0`, `lo` without address and
`eth0`: wildcard discovery returns `eth0` then `wlan0`. -/
theorem C13_witness :
    ∃ l, discoverInterfaces (sysAll [⟨"wlan0", ["10.0.0.7"]⟩, ⟨"lo", []⟩, ⟨"eth0", ["10.0.0.5"]⟩])
        "any" = .ok l
      ∧ l = ["eth0", "wlan0"] :=
  (((C13_discoverInterfaces_sorted_active
      (sysAll [⟨"wlan0", ["10.0.0.7"]⟩, ⟨"lo", []⟩, ⟨"eth0", ["10.0.0.5"]⟩]) "eth0").2
      [⟨"wlan0", ["10.0.0.7"]⟩, ⟨"lo", []⟩, ⟨"eth0", ["10.0.0.5"]⟩] rfl).1
    (by decide)).imp
    (fun _ h => ⟨h.1, Except.ok.inj (h.1.symm.trans rfl)⟩)

/-! ## C14 -/

/-- The entry of an interface right after `initInterfaceUsageLocked`. -/
theorem initInterfaceUsageLocked_entry (env : Env) (tm : TrafficMonitor) (iface : String) :
    ∃ d, (initInterfaceUsageLocked env tm iface).dailyUsage = some d
      ∧ mapGet d.Interfaces iface = some (seedEntry env iface) := by
  cases h : tm.dailyUsage with
  | none =>
    rw [initInterfaceUsageLocked_none env tm iface h]
    exact ⟨_, rfl, by simp [mapGet]⟩
  | some d0 =>
    rw [initInterfaceUsageLocked_some env tm iface d0 h]
    exact ⟨_, rfl, mapGet_mapSet_self _ _ _⟩

/-- Over ticks whose reads all succeed, each total stays the wrapping
difference between the last value and the seed, and the last values are those
of the last read. -/
theorem runTicks_wrapping (iface : String) (sRx sTx : Nat) (css : List CounterSource)
    (reads : List (Nat × Nat))
    (hreads : List.Forall₂ (fun cs r => readInterfaceCounters cs iface = some r) css reads) :
    ∀ (st : InterfaceUsage),
      (st.TotalRx : Int) = ((st.LastRx : Int) - (sRx : Int)) % 2 ^ 64 →
      (st.TotalTx : Int) = ((st.LastTx : Int) - (sTx : Int)) % 2 ^ 64 →
      st.LastRx < 2 ^ 64 → st.LastTx < 2 ^ 64 →
      ((runTicks css iface st).TotalRx : Int)
          = (((runTicks css iface st).LastRx : Int) - (sRx : Int)) % 2 ^ 64
        ∧ ((runTicks css iface st).TotalTx : Int)
          = (((runTicks css iface st).LastTx : Int) - (sTx : Int)) % 2 ^ 64
        ∧ ((runTicks css iface st).LastRx, (runTicks css iface st).LastTx)
          = reads.getLast?.getD (st.LastRx, st.LastTx) := by
  induction hreads with
  | nil =>
    intro st h1 h2 _ _
    exact ⟨h1, h2, rfl⟩
  | @cons cs r css reads hr _ ih =>
    intro st h1 h2 h3 h4
    obtain ⟨rx, tx⟩ := r
    obtain ⟨hrx, htx⟩ := readInterfaceCounters_lt hr
    have hstep : runTicks (cs :: css) iface st
        = runTicks css iface (updateInterfaceUsage cs iface st) := rfl
    rw [hstep, updateInterfaceUsage_of_read st hr]
    have ih' := ih
      { st with
        TotalRx := add64 st.TotalRx (sub64 rx st.LastRx)
        TotalTx := add64 st.TotalTx (sub64 tx st.LastTx)
        LastRx := rx
        LastTx := tx }
      (by show ((add64 st.TotalRx (sub64 rx st.LastRx) : Nat) : Int)
            = ((rx : Int) - (sRx : Int)) % 2 ^ 64
          unfold add64 sub64; omega)
      (by show ((add64 st.TotalTx (sub64 tx st.LastTx) : Nat) : Int)
            = ((tx : Int) - (sTx : Int)) % 2 ^ 64
          unfold add64 sub64; omega)
      hrx htx
    refine ⟨ih'.1, ih'.2.1, ?_⟩
    rw [ih'.2.2, List.getLast?_cons]
    rfl

/-- Over ticks whose received readings never decrease, the received total
plus the seed is the last value. -/
theorem runTicks_monotone_rx (iface : String) (sRx : Nat) (css : List CounterSource)
    (reads : List (Nat × Nat))
    (hreads : List.Forall₂ (fun cs r => readInterfaceCounters cs iface = some r) css reads) :
    ∀ (st : InterfaceUsage), st.TotalRx + sRx = st.LastRx →
      (st.LastRx :: reads.map Prod.fst).Pairwise (fun a b => a ≤ b) →
      (runTicks css iface st).TotalRx + sRx = (runTicks css iface st).LastRx := by
  induction hreads with
  | nil => intro st h _; exact h
  | @cons cs r css reads hr _ ih =>
    intro st h hp
    obtain ⟨rx, tx⟩ := r
    obtain ⟨hrx, _⟩ := readInterfaceCounters_lt hr
    have hstep : runTicks (cs :: css) iface st
        = runTicks css iface (updateInterfaceUsage cs iface st) := rfl
    rw [hstep, updateInterfaceUsage_of_read st hr]
    have hp' : (st.LastRx :: rx :: reads.map Prod.fst).Pairwise (fun a b => a ≤ b) := hp
    have hle : st.LastRx ≤ rx := (List.pairwise_cons.mp hp').1 rx (List.mem_cons_self _ _)
    apply ih
    · show add64 st.TotalRx (sub64 rx st.LastRx) + sRx = rx
      rw [sub64_of_le hle hrx]
      unfold add64; omega
    · exact (List.pairwise_cons.mp hp').2

/-- Over ticks whose sent readings never decrease, the sent total plus the
seed is the last value. -/
theorem runTicks_monotone_tx (iface : String) (sTx : Nat) (css : List CounterSource)
    (reads : List (Nat × Nat))
    (hreads : List.Forall₂ (fun cs r => readInterfaceCounters cs iface = some r) css reads) :
    ∀ (st : InterfaceUsage), st.TotalTx + sTx = st.LastTx →
      (st.LastTx :: reads.map Prod.snd).Pairwise (fun a b => a ≤ b) →
      (runTicks css iface st).TotalTx + sTx = (runTicks css iface st).LastTx := by
  induction hreads with
  | nil => intro st h _; exact h
  | @cons cs r css reads hr _ ih =>
    intro st h hp
    obtain ⟨rx, tx⟩ := r
    obtain ⟨_, htx⟩ := readInterfaceCounters_lt hr
    have hstep : runTicks (cs :: css) iface st
        = runTicks css iface (updateInterfaceUsage cs iface st) := rfl
    rw [hstep, updateInterfaceUsage_of_read st hr]
    have hp' : (st.LastTx :: tx :: reads.map Prod.snd).Pairwise (fun a b => a ≤ b) := hp
    have hle : st.LastTx ≤ tx := (List.pairwise_cons.mp hp').1 tx (List.mem_cons_self _ _)
    apply ih
    · show add64 st.TotalTx (sub64 tx st.LastTx) + sTx = tx
      rw [sub64_of_le hle htx]
      unfold add64; omega
    · exact (List.pairwise_cons.mp hp').2

/-- C14: an interface seeded by `initInterfaceUsageLocked` from the read
`(sRx, sTx)` and then updated by a non-empty sequence of ticks whose reads all
succeed, the last being `(rRx, rTx)`, ends with totals `(rRx - sRx) mod 2^64`
and `(rTx - sTx) mod 2^64` and last values `rRx`, `rTx`, whatever the reads in
between. If the readings of a counter never decrease from the seed on, its
total is the exact difference and after every tick the total is at most the
last value. -/
theorem C14_ticks_telescope (env : Env) (tm : TrafficMonitor) (iface : String)
    (sRx sTx rRx rTx : Nat) (css : List CounterSource) (reads : List (Nat × Nat))
    (hseed : readInterfaceCounters env.counters iface = some (sRx, sTx))
    (hreads : List.Forall₂ (fun cs r => readInterfaceCounters cs iface = some r) css reads)
    (hlast : reads.getLast? = some (rRx, rTx)) :
    ∃ d e, (initInterfaceUsageLocked env tm iface).dailyUsage = some d
      ∧ mapGet d.Interfaces iface = some e
      ∧ e = ⟨iface, 0, 0, sRx, sTx⟩
      ∧ ((runTicks css iface e).TotalRx : Int) = ((rRx : Int) - (sRx : Int)) % 2 ^ 64
      ∧ ((runTicks css iface e).TotalTx : Int) = ((rTx : Int) - (sTx : Int)) % 2 ^ 64
      ∧ (runTicks css iface e).LastRx = rRx
      ∧ (runTicks css iface e).LastTx = rTx
      ∧ (List.Chain (fun a b => a ≤ b) sRx (reads.map Prod.fst) →
          (runTicks css iface e).TotalRx = rRx - sRx ∧ sRx ≤ rRx
          ∧ ∀ k, (runTicks (css.take k) iface e).TotalRx
              ≤ (runTicks (css.take k) iface e).LastRx)
      ∧ (List.Chain (fun a b => a ≤ b) sTx (reads.map Prod.snd) →
          (runTicks css iface e).TotalTx = rTx - sTx ∧ sTx ≤ rTx
          ∧ ∀ k, (runTicks (css.take k) iface e).TotalTx
              ≤ (runTicks (css.take k) iface e).LastTx) := by
  obtain ⟨d, hd, hget⟩ := initInterfaceUsageLocked_entry env tm iface
  rw [seedEntry_of_read hseed] at hget
  obtain ⟨hsr, hst⟩ := readInterfaceCounters_lt hseed
  have hw := runTicks_wrapping iface sRx sTx css reads hreads ⟨iface, 0, 0, sRx, sTx⟩
    (by show ((0 : Nat) : Int) = ((sRx : Int) - (sRx : Int)) % 2 ^ 64
        omega)
    (by show ((0 : Nat) : Int) = ((sTx : Int) - (sTx : Int)) % 2 ^ 64
        omega)
    hsr hst
  rw [hlast] at hw
  have hl : (runTicks css iface ⟨iface, 0, 0, sRx, sTx⟩).LastRx = rRx :=
    congrArg Prod.fst hw.2.2
  have hl' : (runTicks css iface ⟨iface, 0, 0, sRx, sTx⟩).LastTx = rTx :=
    congrArg Prod.snd hw.2.2
  refine ⟨d, _, hd, hget, rfl, ?_, ?_, hl, hl', ?_, ?_⟩
  · rw [hw.1, hl]
  · rw [hw.2.1, hl']
  · intro hchain
    have hp : (sRx :: reads.map Prod.fst).Pairwise (fun a b => a ≤ b) :=
      List.chain_iff_pairwise.mp hchain
    have hm := runTicks_monotone_rx iface sRx css reads hreads ⟨iface, 0, 0, sRx, sTx⟩
      (Nat.zero_add _) hp
    rw [hl] at hm
    refine ⟨by omega, by omega, fun k => ?_⟩
    have hpk : (sRx :: (reads.take k).map Prod.fst).Pairwise (fun a b => a ≤ b) :=
      List.Pairwise.sublist
        (List.Sublist.cons₂ _ ((List.take_sublist k reads).map _)) hp
    have hmk := runTicks_monotone_rx iface sRx (css.take k) (reads.take k)
      (List.forall₂_take k hreads) ⟨iface, 0, 0, sRx, sTx⟩ (Nat.zero_add _) hpk
    omega
  · intro hchain
    have hp : (sTx :: reads.map Prod.snd).Pairwise (fun a b => a ≤ b) :=
      List.chain_iff_pairwise.mp hchain
    have hm := runTicks_monotone_tx iface sTx css reads hreads ⟨iface, 0, 0, sRx, sTx⟩
      (Nat.zero_add _) hp
    rw [hl'] at hm
    refine ⟨by omega, by omega, fun k => ?_⟩
    have hpk : (sTx :: (reads.take k).map Prod.snd).Pairwise (fun a b => a ≤ b) :=
      List.Pairwise.sublist
        (List.Sublist.cons₂ _ ((List.take_sublist k reads).map _)) hp
    have hmk := runTicks_monotone_tx iface sTx (css.take k) (reads.take k)
      (List.forall₂_take k hreads) ⟨iface, 0, 0, sRx, sTx⟩ (Nat.zero_add _) hpk
    omega

/-- C14 on `eth0` seeded at `(1000, 2000)` and ticked at `(900, 2100)` and
then `(1600, 2600)`: the received counter dropped in between, and the totals
are still `600` and `600`. -/
theorem C14_witness :
    ∃ d e, (initInterfaceUsageLocked (envOk "2026-11-04" (csConst 1000 2000)) tmEth0
          "eth0").dailyUsage = some d
      ∧ mapGet d.Interfaces "eth0" = some e
      ∧ ((runTicks [csConst 900 2100, csConst 1600 2600] "eth0" e).TotalRx : Int)
          = ((1600 : Nat) - (1000 : Nat) : Int) % 2 ^ 64
      ∧ (runTicks [csConst 900 2100, csConst 1600 2600] "eth0" e).LastRx = 1600 :=
  (C14_ticks_telescope (envOk "2026-11-04" (csConst 1000 2000)) tmEth0 "eth0"
    1000 2000 1600 2600 [csConst 900 2100, csConst 1600 2600] [(900, 2100), (1600, 2600)]
    rfl (List.Forall₂.cons rfl (List.Forall₂.cons rfl List.Forall₂.nil)) rfl).imp
    (fun _ h => h.imp (fun _ h' => ⟨h'.1, h'.2.1, h'.2.2.2.1, h'.2.2.2.2.2.1⟩))

/-! ## C15 -/

/-- With no attempt configured the loop body never runs, whatever bound the
loop is given. -/
theorem sendLoop_no_attempts (cfg : Config) (srv : Server) (body : DailyUsageReport)
    (hN : cfg.RetryAttempts ≤ 0) (fuel : Nat) :
    sendLoop cfg srv body fuel 1 none [] = ([], none) := by
  cases fuel with
  | zero => rfl
  | succ f =>
    have hnot : ¬ (1 : Int) ≤ cfg.RetryAttempts := by omega
    simp only [sendLoop, if_neg hnot]

/-- C15: with a configured attempt count `N ≤ 0` and a snapshot present,
`sendReport` sends no request, never sleeps and returns `nil`, whatever the
server does and whatever bound the loop is given; and `validate` does not
look at the attempt count, so it accepts such a configuration. -/
theorem C15_sendReport_without_attempts_returns_nil (cfg : Config) (srv : Server)
    (usage : DailyUsage) (hN : cfg.RetryAttempts ≤ 0) :
    sendReport cfg srv (some usage) = ([], none)
      ∧ (∀ fuel, sendLoop cfg srv (buildReport cfg usage) fuel 1 none [] = ([], none))
      ∧ (∀ (server : ServerConfig) (n : Int),
          validate ⟨server, ⟨cfg.RetryAttempts⟩⟩ = validate ⟨server, ⟨n⟩⟩)
      ∧ validate ⟨⟨"localhost", 8080, "device-1"⟩, ⟨cfg.RetryAttempts⟩⟩ = none := by
  refine ⟨?_, fun fuel => sendLoop_no_attempts cfg srv _ hN fuel, fun _ _ => rfl, rfl⟩
  simp only [sendReport]
  exact sendLoop_no_attempts cfg srv _ hN _

/-- C15 with zero attempts against a server that would answer 200. -/
theorem C15_witness :
    sendReport ⟨"dev", 0, 5⟩ (srvStatus 200) (some usageEth0) = ([], none) :=
  (C15_sendReport_without_attempts_returns_nil ⟨"dev", 0, 5⟩ (srvStatus 200) usageEth0
    (by decide)).1

end PacketMeter
